import Mathlib

/-!
# pgslap: the workload generator (`data.go`), the agent loop (`agent.go`) and
the database lifecycle (`task.go`)

A shallow embedding of the statement generator `Data`, of the tick of
`Agent.run` and of `Task.createDatabase` and `Task.teardownDB`, with the
properties of the generated statement stream, of the agent's error policy and
of the teardown.

Conventions of the embedding:

* Go `int` configuration fields are `Int`; a loop `for i := 1; i <= n; i++`
  runs `n.toNat` times (not at all for `n ≤ 0`).
* A Go `int` has 64 bits: the sum of two configuration fields wraps
  (`addInt64`).
* The cursors `idIdx`, `mixedIdx`, `commitCnt`, `queryIdx` start at 0 and are
  only incremented or reset to 0, so they are `Nat`.
* A Go panic (index out of range, invalid load type) is `none`.
* `fmt`'s `%d` is `toString` on `Nat`.
* The random source (`rand.Source`, `randstr.String`) is external to the
  repository: it is a state type `R` with the two operations of `RandOps`.
-/

namespace Pgslap

/-! ## Data model -/

/-- An element of the `[]interface{}` argument list: the generator only ever
puts `int64` values and strings in it. -/
inductive Arg where
  | int (v : Int)
  | str (s : String)
  deriving DecidableEq, Repr

/-- Whether the argument is an integer. -/
def Arg.isInt : Arg → Bool
  | .int _ => true
  | .str _ => false

/-- Whether the argument is a string. -/
def Arg.isStr : Arg → Bool
  | .int _ => false
  | .str _ => true

def LoadTypeMixed : String := "mixed"
def LoadTypeUpdate : String := "update"
def LoadTypeWrite : String := "write"
def LoadTypeKey : String := "key"
def LoadTypeRead : String := "read"
def AutoGenerateTableName : String := "t1"

/-- The struct `DataOpts`; `LoadType` is a string type in the source, so any
string is a possible value. -/
structure DataOpts where
  LoadType : String
  GuidPrimary : Bool
  NumberSecondaryIndexes : Int
  CommitRate : Int
  MixedSelRatio : Int
  MixedInsRatio : Int
  NumberIntCols : Int
  IntColsIndex : Bool
  NumberCharCols : Int
  CharColsIndex : Bool
  Queries : List String
  PreQueries : List String
  deriving DecidableEq, Repr

/-- The struct `Data`, over the state type `R` of its random source. -/
structure Data (R : Type) where
  opts : DataOpts
  randSrc : R
  idList : List String
  idIdx : Nat
  mixedIdx : Nat
  commitCnt : Nat
  committed : Bool
  queryIdx : Nat
  deriving DecidableEq, Repr

/-- The two operations the generator performs on its random source:
`rand.Source.Int63` and `randstr.String(src, n)`. Both advance the source. -/
structure RandOps (R : Type) where
  Int63 : R → Nat × R
  randstr : R → Nat → String × R

/-- The function `newData`: every cursor at its zero value; `seed` is the
source made from the wall clock. -/
def newData {R : Type} (opts : DataOpts) (idList : List String) (seed : R) : Data R :=
  { opts := opts, randSrc := seed, idList := idList,
    idIdx := 0, mixedIdx := 0, commitCnt := 0, committed := false, queryIdx := 0 }

/-- The method `Data.initStmts`. -/
def initStmts {R : Type} (data : Data R) : List String :=
  let stmts : List String := []
  let stmts := if 0 < data.opts.PreQueries.length then stmts ++ data.opts.PreQueries else stmts
  let stmts := if 0 < data.opts.CommitRate then stmts ++ ["BEGIN"] else stmts
  stmts

/-- The loop `for i := 1; i <= n; i++ { body }` as a fold over `1..n`. -/
def forLoop {σ : Type} (n : Int) (body : Nat → σ → σ) (init : σ) : σ :=
  (List.range' 1 n.toNat).foldl (fun s i => body i s) init

/-- The method `Data.nextId`; `none` is the index-out-of-range panic on an
empty id list. -/
def nextId {R : Type} (data : Data R) : Option (String × Data R) :=
  let idIdx := if data.idIdx ≥ data.idList.length then 0 else data.idIdx
  match data.idList[idIdx]? with
  | none => none
  | some id => some (id, { data with idIdx := idIdx + 1 })

/-- The method `Data.buildCreateTableStmt`; it reads the options only. -/
def buildCreateTableStmt {R : Type} (data : Data R) : String × List String :=
  let indices : List String := []
  let sb := "CREATE TABLE " ++ AutoGenerateTableName ++ " (id "
  let sb := if data.opts.GuidPrimary then sb ++ "uuid PRIMARY KEY DEFAULT gen_random_uuid()"
    else sb ++ "serial PRIMARY KEY"
  let sb := forLoop data.opts.NumberSecondaryIndexes
    (fun i sb => sb ++ (",id" ++ toString i ++ " uuid UNIQUE")) sb
  let (sb, indices) := forLoop data.opts.NumberIntCols
    (fun i (st : String × List String) =>
      (st.1 ++ (",intcol" ++ toString i ++ " int"),
       if data.opts.IntColsIndex then
         st.2 ++ ["CREATE INDEX ON " ++ AutoGenerateTableName ++ "(intcol" ++ toString i ++ ")"]
       else st.2))
    (sb, indices)
  let (sb, indices) := forLoop data.opts.NumberCharCols
    (fun i (st : String × List String) =>
      (st.1 ++ (",charcol" ++ toString i ++ " varchar(128)"),
       if data.opts.CharColsIndex then
         st.2 ++ ["CREATE INDEX ON " ++ AutoGenerateTableName ++ "(charcol" ++ toString i ++ ")"]
       else st.2))
    (sb, indices)
  let sb := sb ++ ")"
  (sb, indices)

/-- The method `Data.buildSelectStmt`; with `key` it consumes the next id. -/
def buildSelectStmt {R : Type} (data : Data R) (key : Bool) :
    Option ((String × List Arg) × Data R) :=
  let args : List Arg := []
  let sb := "SELECT "
  let sb := forLoop data.opts.NumberIntCols
    (fun i sb =>
      let sb := if i ≥ 2 then sb ++ "," else sb
      sb ++ ("intcol" ++ toString i)) sb
  let sb := forLoop data.opts.NumberCharCols
    (fun i sb =>
      let sb := if data.opts.NumberIntCols ≥ 1 ∨ i ≥ 2 then sb ++ "," else sb
      sb ++ ("charcol" ++ toString i)) sb
  let sb := sb ++ (" FROM " ++ AutoGenerateTableName)
  if key then
    let sb := sb ++ " WHERE id = $1"
    match nextId data with
    | none => none
    | some (id, data) => some ((sb, args ++ [Arg.str id]), data)
  else
    some ((sb, args), data)

/-- The loop state of `buildInsertStmt` and `buildUpdateStmt`: the builder,
`phIdx`, `args` and the random source. -/
structure GenState (R : Type) where
  sb : String
  phIdx : Nat
  args : List Arg
  randSrc : R

/-- The value `data.randSrc.Int63() >> 32`: `Int63` yields a non-negative
63-bit integer. -/
def int63Shift32 (v : Nat) : Int := ((v % 2 ^ 63) / 2 ^ 32 : Nat)

/-- The method `Data.buildInsertStmt`. -/
def buildInsertStmt {R : Type} (ops : RandOps R) (data : Data R) :
    (String × List Arg) × Data R :=
  let sb := "INSERT INTO " ++ AutoGenerateTableName ++ " VALUES (DEFAULT"
  let sb := forLoop data.opts.NumberSecondaryIndexes
    (fun _ sb => sb ++ ",gen_random_uuid()") sb
  let st : GenState R := { sb := sb, phIdx := 1, args := [], randSrc := data.randSrc }
  let st := forLoop data.opts.NumberIntCols
    (fun _ (st : GenState R) =>
      let r := ops.Int63 st.randSrc
      { sb := st.sb ++ (",$" ++ toString st.phIdx), phIdx := st.phIdx + 1,
        args := st.args ++ [Arg.int (int63Shift32 r.1)], randSrc := r.2 }) st
  let st := forLoop data.opts.NumberCharCols
    (fun _ (st : GenState R) =>
      let r := ops.randstr st.randSrc 128
      { sb := st.sb ++ (",$" ++ toString st.phIdx), phIdx := st.phIdx + 1,
        args := st.args ++ [Arg.str r.1], randSrc := r.2 }) st
  let sb := st.sb ++ ")"
  ((sb, st.args), { data with randSrc := st.randSrc })

/-- The method `Data.buildUpdateStmt`. -/
def buildUpdateStmt {R : Type} (ops : RandOps R) (data : Data R) :
    Option ((String × List Arg) × Data R) :=
  let sb := "UPDATE " ++ AutoGenerateTableName ++ " SET "
  let st : GenState R := { sb := sb, phIdx := 1, args := [], randSrc := data.randSrc }
  let st := forLoop data.opts.NumberIntCols
    (fun i (st : GenState R) =>
      let sb := if i ≥ 2 then st.sb ++ "," else st.sb
      let r := ops.Int63 st.randSrc
      { sb := sb ++ ("intcol" ++ toString i ++ " = $" ++ toString st.phIdx),
        phIdx := st.phIdx + 1,
        args := st.args ++ [Arg.int (int63Shift32 r.1)], randSrc := r.2 }) st
  let st := forLoop data.opts.NumberCharCols
    (fun i (st : GenState R) =>
      let sb := if data.opts.NumberIntCols ≥ 1 ∨ i ≥ 2 then st.sb ++ "," else st.sb
      let r := ops.randstr st.randSrc 128
      { sb := sb ++ ("charcol" ++ toString i ++ " = $" ++ toString st.phIdx),
        phIdx := st.phIdx + 1,
        args := st.args ++ [Arg.str r.1], randSrc := r.2 }) st
  let sb := st.sb ++ (" WHERE id = $" ++ toString st.phIdx)
  match nextId { data with randSrc := st.randSrc } with
  | none => none
  | some (id, data) => some ((sb, st.args ++ [Arg.str id]), data)

/-- The sum of two Go `int`s (64 bits, two's complement): the sum taken into
`[-2^63, 2^63)` modulo `2^64`. -/
def addInt64 (a b : Int) : Int := (a + b + 2 ^ 63) % 2 ^ 64 - 2 ^ 63

/-- Lines 89–127 of `Data.next`: the fixed statement list, else the dispatch
on the load type. The `default` branch panics. -/
def nextGen {R : Type} (ops : RandOps R) (data : Data R) :
    Option ((String × List Arg) × Data R) :=
  if 0 < data.opts.Queries.length then
    match data.opts.Queries[data.queryIdx]? with
    | none => none
    | some q =>
      let queryIdx := data.queryIdx + 1
      let queryIdx := if queryIdx = data.opts.Queries.length then 0 else queryIdx
      some ((q, []), { data with queryIdx := queryIdx })
  else if data.opts.LoadType = LoadTypeMixed then
    let r :=
      if (data.mixedIdx : Int) < data.opts.MixedSelRatio then buildSelectStmt data true
      else some (buildInsertStmt ops data)
    match r with
    | none => none
    | some (out, data) =>
      let mixedIdx := data.mixedIdx + 1
      let mixedIdx :=
        if (mixedIdx : Int) ≥ addInt64 data.opts.MixedSelRatio data.opts.MixedInsRatio then 0
        else mixedIdx
      some (out, { data with mixedIdx := mixedIdx })
  else if data.opts.LoadType = LoadTypeUpdate then buildUpdateStmt ops data
  else if data.opts.LoadType = LoadTypeWrite then some (buildInsertStmt ops data)
  else if data.opts.LoadType = LoadTypeKey then buildSelectStmt data true
  else if data.opts.LoadType = LoadTypeRead then buildSelectStmt data false
  else none

/-- The method `Data.next`: lines 74–87 are the commit grouping, the rest is
`nextGen`. -/
def next {R : Type} (ops : RandOps R) (data : Data R) :
    Option ((String × List Arg) × Data R) :=
  if 0 < data.opts.CommitRate then
    if (data.commitCnt : Int) = data.opts.CommitRate then
      some (("COMMIT", []), { data with commitCnt := 0, committed := true })
    else if data.committed then
      some (("BEGIN", []), { data with committed := false })
    else
      nextGen ops { data with commitCnt := data.commitCnt + 1 }
  else
    nextGen ops data

/-- The generator after `k` calls to `next`, `none` once a call panicked. -/
def afterCalls {R : Type} (ops : RandOps R) : Nat → Data R → Option (Data R)
  | 0, data => some data
  | k + 1, data =>
    match next ops data with
    | none => none
    | some (_, data) => afterCalls ops k data

/-- What the `k`-th call to `next` (from 0) returns, with the state it leaves. -/
def nthCall {R : Type} (ops : RandOps R) (k : Nat) (data : Data R) :
    Option ((String × List Arg) × Data R) :=
  match afterCalls ops k data with
  | none => none
  | some data => next ops data

/-- A call to `next` is a control call when the commit grouping answers it
(`COMMIT` or `BEGIN`) instead of the generation below. -/
def isControlCall {R : Type} (data : Data R) : Bool :=
  decide (0 < data.opts.CommitRate) &&
    (decide ((data.commitCnt : Int) = data.opts.CommitRate) || data.committed)

/-- The first `k` calls to `next`: for each call, whether it was a control call
and what it returned. The trace ends early at a panic. -/
def trace {R : Type} (ops : RandOps R) : Nat → Data R → List (Bool × (String × List Arg))
  | 0, _ => []
  | k + 1, data =>
    match next ops data with
    | none => []
    | some (out, data') => (isControlCall data, out) :: trace ops k data'

/-- What the non-control calls among the first `k` calls returned, in order:
entry `j` is the `j`-th non-control call. -/
def genOutputs {R : Type} (ops : RandOps R) (k : Nat) (data : Data R) :
    List (String × List Arg) :=
  ((trace ops k data).filter fun e => !e.1).map Prod.snd

/-- A deterministic stand-in for the random source, to evaluate the generator:
the state is a counter, `Int63` yields `counter * 2^32` and `randstr` yields
`n` copies of `x`. -/
def counterOps : RandOps Nat where
  Int63 := fun s => (s * 2 ^ 32, s + 1)
  randstr := fun s n => (String.mk (List.replicate n 'x'), s + 1)

/-- A sample configuration: one integer column, no grouping. -/
def sampleOpts (loadType : String) : DataOpts :=
  { LoadType := loadType, GuidPrimary := false, NumberSecondaryIndexes := 0,
    CommitRate := 0, MixedSelRatio := 0, MixedInsRatio := 0,
    NumberIntCols := 1, IntColsIndex := false, NumberCharCols := 0, CharColsIndex := false,
    Queries := [], PreQueries := [] }

/-- A sample schema: two secondary indexes, two indexed integer columns and one
character column. -/
def schemaOpts : DataOpts :=
  { LoadType := "write", GuidPrimary := false, NumberSecondaryIndexes := 2,
    CommitRate := 0, MixedSelRatio := 0, MixedInsRatio := 0,
    NumberIntCols := 2, IntColsIndex := true, NumberCharCols := 1, CharColsIndex := false,
    Queries := [], PreQueries := [] }

/-! ## Closed forms of the generated text -/

/-- The column names `intcol1, ..., intcoln`. -/
def intColNames (n : Nat) : List String :=
  (List.range' 1 n).map fun i => "intcol" ++ toString i

/-- The column names `charcol1, ..., charcoln`. -/
def charColNames (n : Nat) : List String :=
  (List.range' 1 n).map fun i => "charcol" ++ toString i

/-- The text `,$p,$(p+1),...` of `n` value placeholders from number `p` on. -/
def placeholderList (p n : Nat) : String :=
  String.join ((List.range' p n).map fun k => ",$" ++ toString k)

/-- The arguments drawn by `n` successive draws from the random source, and
the source they leave. -/
def drawArgs {R : Type} (draw : R → Arg × R) : Nat → R → List Arg × R
  | 0, rs => ([], rs)
  | n + 1, rs =>
    let prev := drawArgs draw n rs
    let r := draw prev.2
    (prev.1 ++ [r.1], r.2)

/-- One integer argument: `Int63() >> 32`. -/
def drawInt {R : Type} (ops : RandOps R) (rs : R) : Arg × R :=
  (Arg.int (int63Shift32 (ops.Int63 rs).1), (ops.Int63 rs).2)

/-- One character argument: `randstr.String(src, 128)`. -/
def drawStr {R : Type} (ops : RandOps R) (rs : R) : Arg × R :=
  (Arg.str (ops.randstr rs 128).1, (ops.randstr rs 128).2)

/-- The text of the SELECT over `nInt` integer and `nChar` character columns. -/
def selectText (nInt nChar : Nat) (key : Bool) : String :=
  "SELECT " ++ String.intercalate "," (intColNames nInt ++ charColNames nChar) ++ " FROM t1" ++
    (if key then " WHERE id = $1" else "")

/-- The text of the INSERT, as the claim words it: `DEFAULT`, `nSec` copies of
`,gen_random_uuid()`, then the placeholders `,$1` to `,$(nInt+nChar)`. -/
def insertText (nSec nInt nChar : Nat) : String :=
  "INSERT INTO t1 VALUES (DEFAULT" ++ String.join (List.replicate nSec ",gen_random_uuid()") ++
    placeholderList 1 (nInt + nChar) ++ ")"

/-- The assignments `intcol1 = $1, ..., charcol1 = $(nInt+1), ...` of the UPDATE. -/
def updateAssignments (nInt nChar : Nat) : List String :=
  ((List.range' 1 nInt).map fun i => "intcol" ++ toString i ++ " = $" ++ toString i) ++
    ((List.range' 1 nChar).map fun i => "charcol" ++ toString i ++ " = $" ++ toString (nInt + i))

/-- The text of the UPDATE over `nInt` integer and `nChar` character columns. -/
def updateText (nInt nChar : Nat) : String :=
  "UPDATE t1 SET " ++ String.intercalate "," (updateAssignments nInt nChar) ++
    " WHERE id = $" ++ toString (nInt + nChar + 1)

/-- The arguments of one INSERT (`nInt` integers, then `nChar` strings) drawn
from the random source, and the source they leave. -/
def insertArgs {R : Type} (ops : RandOps R) (nInt nChar : Nat) (rs : R) : List Arg × R :=
  let a := drawArgs (drawInt ops) nInt rs
  let b := drawArgs (drawStr ops) nChar a.2
  (a.1 ++ b.1, b.2)

/-- A configuration and id list on which the generation never panics: a fixed
statement list, or a valid load type with an id list to draw from when the
load type consumes ids. -/
def Runnable (opts : DataOpts) (idList : List String) : Prop :=
  opts.Queries ≠ [] ∨ opts.LoadType = LoadTypeWrite ∨ opts.LoadType = LoadTypeRead ∨
    ((opts.LoadType = LoadTypeKey ∨ opts.LoadType = LoadTypeUpdate ∨
      opts.LoadType = LoadTypeMixed) ∧ idList ≠ [])

/-- The index `nextId` reads: the cursor, wrapped to 0 at the end of the list. -/
def effIdx {R : Type} (data : Data R) : Nat :=
  if data.idIdx ≥ data.idList.length then 0 else data.idIdx

/-- The first character of a text. -/
def firstChar (s : String) : Option Char := s.data.head?

/-- The position of a generator in the commit cycle of rate `N`: `p ≤ N` after
`p` statements since `BEGIN`, and `N + 1` when `COMMIT` was just returned. -/
def Phase {R : Type} (N : Nat) (d : Data R) (p : Nat) : Prop :=
  (p ≤ N ∧ d.commitCnt = p ∧ d.committed = false) ∨
    (p = N + 1 ∧ d.commitCnt = 0 ∧ d.committed = true)

/-- A generator of the given options and id list whose fixed-list cursor is in
range. -/
def Steady {R : Type} (opts : DataOpts) (idList : List String) (d : Data R) : Prop :=
  d.opts = opts ∧ d.idList = idList ∧
    (d.opts.Queries ≠ [] → d.queryIdx < d.opts.Queries.length)

/-- The primary-key argument of a key SELECT or an UPDATE: the argument of the
`WHERE id` placeholder, the last of the list. -/
def idArg (out : String × List Arg) : Option Arg := out.2.getLast?

/-- The number a run of decimal digits denotes. -/
def parseNat (ds : List Char) : Nat :=
  ds.foldl (fun acc c => 10 * acc + (c.toNat - '0'.toNat)) 0

/-- The placeholders of a text: each `$` that is followed by a digit counts
once, with the number its longest run of digits denotes, in order of
occurrence. -/
def scanPlaceholders : List Char → List Nat
  | [] => []
  | c :: cs =>
    if c = '$' ∧ cs.takeWhile Char.isDigit ≠ [] then
      parseNat (cs.takeWhile Char.isDigit) :: scanPlaceholders cs
    else scanPlaceholders cs

/-- The placeholder numbers `$n` that occur in a statement, in order. -/
def placeholders (s : String) : List Nat := scanPlaceholders s.data

/-- A text without the character `$`. -/
def NoDollar (s : String) : Prop := '$' ∉ s.data

/-- A text that is empty or starts with a character that is not a digit. -/
def NonDigitHead (s : String) : Prop := ∀ c, s.data.head? = some c → c.isDigit = false

instance (s : String) : Decidable (NoDollar s) := by
  unfold NoDollar; infer_instance

instance (s : String) : Decidable (NonDigitHead s) :=
  match h : s.data.head? with
  | none => isTrue (by intro c hc; rw [h] at hc; cases hc)
  | some c =>
    if hd : c.isDigit = false then
      isTrue (by intro x hx; rw [h, Option.some.injEq] at hx; subst hx; exact hd)
    else isFalse (fun hn => hd (hn c h))

/-- A piece `pre$n` of a statement: a text followed by the placeholder `$n`. -/
def piece (it : String × Nat) : String := it.1 ++ ("$" ++ toString it.2)

/-- The pieces of the UPDATE's assignment list: `intcol<i> = ` with
placeholder `i`, then `charcol<i> = ` with placeholder `nInt + i`. -/
def updateItems (nInt nChar : Nat) : List (String × Nat) :=
  ((List.range' 1 nInt).map fun i => ("intcol" ++ toString i ++ " = ", i)) ++
    ((List.range' 1 nChar).map fun i => ("charcol" ++ toString i ++ " = ", nInt + i))

/-- A comma before every piece but the first. -/
def commaSeparated : List (String × Nat) → List (String × Nat)
  | [] => []
  | it :: rest => it :: rest.map fun x => ("," ++ x.1, x.2)

/-- The column definitions of the generated table, as the claim lists them:
`id`, then `id1..idK`, `intcol1..intcolI`, `charcol1..charcolC`. -/
def columnDefs (guid : Bool) (nSec nInt nChar : Nat) : List String :=
  ("id " ++ if guid then "uuid PRIMARY KEY DEFAULT gen_random_uuid()" else "serial PRIMARY KEY") ::
    (((List.range' 1 nSec).map fun i => "id" ++ toString i ++ " uuid UNIQUE") ++
      ((List.range' 1 nInt).map fun i => "intcol" ++ toString i ++ " int") ++
      ((List.range' 1 nChar).map fun i => "charcol" ++ toString i ++ " varchar(128)"))

/-- The `CREATE INDEX` statements: one per integer column when `intIdx`, then
one per character column when `charIdx`. -/
def indexStmts (intIdx charIdx : Bool) (nInt nChar : Nat) : List String :=
  (if intIdx then (List.range' 1 nInt).map fun i => "CREATE INDEX ON t1(intcol" ++ toString i ++ ")"
    else []) ++
  (if charIdx then
      (List.range' 1 nChar).map fun i => "CREATE INDEX ON t1(charcol" ++ toString i ++ ")"
    else [])

/-- The values of the generated INSERT: `DEFAULT`, one `gen_random_uuid()` per
secondary index, one placeholder per integer and character column. -/
def insertValues (nSec nInt nChar : Nat) : List String :=
  "DEFAULT" :: (List.replicate nSec "gen_random_uuid()" ++
    (List.range' 1 (nInt + nChar)).map fun k => "$" ++ toString k)

/-! ## The agent (`agent.go`) -/

/-- A failure of `Exec`, by the two tests `Agent.query` makes on it:
`errors.Is(err, context.Canceled)` and `pgconn.Timeout(err)`; `msg` stands for
the rest of the error. -/
structure ExecError where
  canceled : Bool
  timeout : Bool
  msg : String
  deriving DecidableEq, Repr

/-- What one `agent.db.Exec` call gives `Agent.query` to work with: the error
if any, the wall clock read before (`start`) and after (`stop`, the source's
`end`) the call, whether `agent.db` is a `*pgx.Conn` (it is a `*NullDB` in a
dry run) and whether that connection reports `IsClosed()` after the call. -/
structure ExecResult where
  err : Option ExecError
  start : Int
  stop : Int
  isPgxConn : Bool
  isClosed : Bool
  deriving DecidableEq, Repr

/-- The method `Agent.query`: the duration and the error it returns. -/
def query (r : ExecResult) : Int × Option ExecError :=
  match r.err with
  | some err =>
    if !err.canceled && !err.timeout then
      if !r.isPgxConn || !r.isClosed then (0, some err)
      else (r.stop - r.start, none)
    else (r.stop - r.start, none)
  | none => (r.stop - r.start, none)

/-- The struct `recorderDataPoint`: one latency sample. -/
structure DataPoint where
  timestamp : Int
  resTime : Int
  deriving DecidableEq, Repr

/-- The error of the step function:
`Execute query error (query=%s, args=%v): %w`, wrapping `cause`. -/
structure StepError where
  query : String
  args : List Arg
  cause : ExecError
  deriving DecidableEq, Repr

/-- The error of `Agent.run`: `Failed to transact (agent id=%d): %w`. -/
structure RunError where
  agentId : Nat
  cause : StepError
  deriving DecidableEq, Repr

/-- What the world presents to one tick of the step function: whether
`ctx.Done()` is ready (the cancellation has fired), whether a tick is pending
on `recordTick.C`, which of the two `select` picks when both are ready (Go
chooses among the ready cases by uniform pseudo-random selection), what the
executor answers to a statement, and the wall clock of the sample. -/
structure Tick where
  ctxDone : Bool
  tickReady : Bool
  pickDone : Bool
  exec : String → List Arg → ExecResult
  now : Int

/-- The case a `select` over `ctx.Done()`, `recordTick.C` and `default` runs. -/
inductive SelectCase where
  | done
  | tick
  | dflt
  deriving DecidableEq, Repr

/-- The `select` statement of the step function: a ready case is run, `default`
only when none is ready, and with both ready the pick of the runtime. -/
def selectCase (t : Tick) : SelectCase :=
  if t.ctxDone && t.tickReady then (if t.pickDone then .done else .tick)
  else if t.ctxDone then .done
  else if t.tickReady then .tick
  else .dflt

/-- The `select` of the loop of `Task.prePopulateData` (`task.go`), over
`ctx.Done()` and `default` only: a fired cancellation is always taken. -/
def selectDoneOrDefault (ctxDone : Bool) : SelectCase :=
  if ctxDone then .done else .dflt

/-- What a run of the agent has changed so far: its generator, the buffered
batch `recDps`, the batches handed to `recorder.add`, and the statements handed
to the executor. -/
structure AgentState (R : Type) where
  data : Data R
  recDps : List DataPoint
  recorded : List (List DataPoint)
  executed : List (String × List Arg)

/-- Modelled from the spec: `Recorder.add` is not among the sources. The spec:
"non-blocking best-effort enqueue of a batch of samples". The model keeps the
batches handed over, in order. -/
@[reducible]
def recorderAdd (recorded : List (List DataPoint)) (batch : List DataPoint) :
    List (List DataPoint) :=
  recorded ++ [batch]

/-- The step function of `Agent.run` (the closure given to `loopWithThrottle`),
at index `i` with `taskOps.NumberQueriesToExecute = nQueries`. It returns
`(continue, error)` and the new state; `none` is a panic of `Data.next`. -/
def step {R : Type} (ops : RandOps R) (nQueries : Int) (i : Nat) (t : Tick)
    (s : AgentState R) : Option ((Bool × Option StepError) × AgentState R) :=
  if 0 < nQueries ∧ (i : Int) ≥ nQueries then some ((false, none), s)
  else
    match selectCase t with
    | .done => some ((false, none), s)
    | c =>
      let s : AgentState R :=
        if c = .tick then { s with recorded := recorderAdd s.recorded s.recDps, recDps := [] }
        else s
      match next ops s.data with
      | none => none
      | some ((q, args), data) =>
        let s : AgentState R := { s with data := data, executed := s.executed ++ [(q, args)] }
        match query (t.exec q args) with
        | (_, some err) => some ((false, some { query := q, args := args, cause := err }), s)
        | (rt, none) =>
          some ((true, none),
            { s with recDps := s.recDps ++ [{ timestamp := t.now, resTime := rt }] })

/-- Modelled from the spec: `loopWithThrottle` is not among the sources. The
spec: it "invokes step with increasing index starting at 0" and "stops when
step returns continue=false or an error, propagating the error". The pacing
delay is left out; `fuel` bounds the number of ticks, and `none` is a panic of
the step or the fuel running out. -/
def loopWithThrottle {σ ε : Type} (stepFn : Nat → σ → Option ((Bool × Option ε) × σ)) :
    Nat → Nat → σ → Option (Option ε × σ)
  | 0, _, _ => none
  | fuel + 1, i, s =>
    match stepFn i s with
    | none => none
    | some ((_, some err), s') => some (some err, s')
    | some ((false, none), s') => some (none, s')
    | some ((true, none), s') => loopWithThrottle stepFn fuel (i + 1) s'

/-- The method `Agent.run` of agent `agentId`: the loop over the step function
from an empty batch, its error wrapped. `env i` is what the world presents to
tick `i`. -/
def run {R : Type} (ops : RandOps R) (nQueries : Int) (agentId : Nat) (env : Nat → Tick)
    (fuel : Nat) (s : AgentState R) : Option (Option RunError × AgentState R) :=
  match loopWithThrottle (fun i s => step ops nQueries i (env i) s) fuel 0
      { s with recDps := [] } with
  | none => none
  | some (some err, s') => some (some { agentId := agentId, cause := err }, s')
  | some (none, s') => some (none, s')

/-- A failure `Agent.query` lets pass, as the code decides it: cancelled, or a
timeout, or the connection is a pgx connection that is already closed. -/
def tolerated (r : ExecResult) (err : ExecError) : Bool :=
  err.canceled || err.timeout || (r.isPgxConn && r.isClosed)

/-- A sample executor answer: the failure `err` after 250 time units on an
open pgx connection. -/
def failing (err : ExecError) : ExecResult :=
  { err := some err, start := 100, stop := 350, isPgxConn := true, isClosed := false }

/-- A sample tick: the executor answers every statement with `r`. -/
def sampleTick (ctxDone tickReady pickDone : Bool) (r : ExecResult) : Tick :=
  { ctxDone := ctxDone, tickReady := tickReady, pickDone := pickDone,
    exec := fun _ _ => r, now := 1000 }

/-- A sample agent at the start of its run, on the load type `read`. -/
def sampleAgent : AgentState Nat :=
  { data := newData (sampleOpts "read") [] 0, recDps := [], recorded := [], executed := [] }

/-! ## The task's database lifecycle (`task.go`) -/

/-- The fields of `TaskOpts` and of its `PgConfig` that the database lifecycle
reads: the target database, the dry-run switch and the three lifecycle flags.
`createDatabase` writes `UseExistingDatabase`. -/
structure TaskOpts where
  Database : String
  OnlyPrint : Bool
  DropExistingDatabase : Bool
  UseExistingDatabase : Bool
  NoDropDatabase : Bool
  deriving DecidableEq, Repr

/-- A statement the lifecycle sends on its connection to the `postgres`
database. -/
inductive Stmt where
  | dropIfExists (db : String)
  | countDatabase (db : String)
  | createDatabase (db : String)
  | dropDatabase (db : String)
  deriving DecidableEq, Repr

/-- The text of a lifecycle statement, as the source formats it. -/
def Stmt.text : Stmt → String
  | .dropIfExists db => "DROP DATABASE IF EXISTS `" ++ db ++ "`"
  | .countDatabase _ => "SELECT COUNT(*) FROM pg_database WHERE datname = $1"
  | .createDatabase db => "CREATE DATABASE \"" ++ db ++ "\""
  | .dropDatabase db => "DROP DATABASE \"" ++ db ++ "\""

/-- The errors of `createDatabase` and `teardownDB`, by their message:
`Connection error`, `Drop database error`, `Database existence check error`,
`Create database error`. -/
inductive TaskError where
  | connection
  | dropDatabase
  | existenceCheck
  | createDatabase
  deriving DecidableEq, Repr

/-- What the server answers to one lifecycle method on a real connection:
whether `openAndPing` connects, whether the `DROP DATABASE IF EXISTS` succeeds,
what `row.Scan(&dbCnt)` reads (`none` is its error), whether the
`CREATE DATABASE` and the `DROP DATABASE` succeed. A dry run (`OnlyPrint`, the
connection is a `*NullDB`) asks the server nothing. -/
structure ServerAnswers where
  connects : Bool
  dropIfExistsOk : Bool
  dbCnt : Option Int
  createOk : Bool
  dropOk : Bool
  deriving DecidableEq, Repr

/-- The count `createDatabase` works with after its existence check: 0 on a
`*NullDB`, else what `row.Scan` reads. -/
def checkedCount (task : TaskOpts) (w : ServerAnswers) : Option Int :=
  if task.OnlyPrint then some 0 else w.dbCnt

/-- The method `Task.createDatabase`: the error it returns, the task it leaves
and the statements it sent. -/
def createDatabase (task : TaskOpts) (w : ServerAnswers) :
    Option TaskError × TaskOpts × List Stmt :=
  if !task.OnlyPrint && !w.connects then (some .connection, task, [])
  else
    let sent : List Stmt :=
      if task.DropExistingDatabase then [Stmt.dropIfExists task.Database] else []
    if task.DropExistingDatabase && !task.OnlyPrint && !w.dropIfExistsOk then
      (some .dropDatabase, task, sent)
    else
      let sent := sent ++ [Stmt.countDatabase task.Database]
      match checkedCount task w with
      | none => (some .existenceCheck, task, sent)
      | some dbCnt =>
        if dbCnt < 1 then
          let sent := sent ++ [Stmt.createDatabase task.Database]
          if !task.OnlyPrint && !w.createOk then (some .createDatabase, task, sent)
          else (none, task, sent)
        else (none, { task with UseExistingDatabase := true }, sent)

/-- The method `Task.teardownDB`: the error it returns and the statements it
sent. -/
def teardownDB (task : TaskOpts) (w : ServerAnswers) : Option TaskError × List Stmt :=
  if !task.NoDropDatabase && !task.UseExistingDatabase then
    if !task.OnlyPrint && !w.connects then (some .connection, [])
    else if !task.OnlyPrint && !w.dropOk then
      (some .dropDatabase, [Stmt.dropDatabase task.Database])
    else (none, [Stmt.dropDatabase task.Database])
  else (none, [])

/-- The method `Task.Close`: `return nil`. It sends nothing. -/
def Close (_task : TaskOpts) : Option TaskError × List Stmt := (none, [])

/-- The deferred function of `Task.Run`: `rec.close()` and `agent.close()` for
every agent. It closes the recorder and the agents' connections; the
statements it sends: none. -/
def runCleanup (_task : TaskOpts) : List Stmt := []

/-- The normal path of `main` once the agents are done: the deferred function
of `Task.Run`, then `Task.Close`. The error returned and the statements
sent. -/
def normalTeardown (task : TaskOpts) : Option TaskError × List Stmt :=
  ((Close task).1, runCleanup task ++ (Close task).2)

/-- The interrupt branch of `Task.trapSigint`, after `cancel()` and
`eg.Wait()`: `_ = task.teardownDB()`, then `os.Exit(130)`. It gives the
statements sent and the exit status; the error of `teardownDB` is dropped. -/
def interruptTeardown (task : TaskOpts) (w : ServerAnswers) : List Stmt × Nat :=
  ((teardownDB task w).2, 130)

/-- A sample task on the database `bench`, no flag set. -/
def sampleTask : TaskOpts :=
  { Database := "bench", OnlyPrint := false, DropExistingDatabase := false,
    UseExistingDatabase := false, NoDropDatabase := false }

/-- A sample server that connects, reads the count `cnt` and lets every
statement succeed. -/
def sampleServer (cnt : Int) : ServerAnswers :=
  { connects := true, dropIfExistsOk := true, dbCnt := some cnt, createOk := true,
    dropOk := true }

/-! ## Strings and loops -/

theorem join_append (l₁ l₂ : List String) :
    String.join (l₁ ++ l₂) = String.join l₁ ++ String.join l₂ := by
  have h : ∀ (l : List String) (acc : String),
      List.foldl (fun r s => r ++ s) acc l = acc ++ String.join l := by
    intro l
    induction l with
    | nil => intro acc; simp [String.join]
    | cons a l ih =>
      intro acc
      simp only [String.join, List.foldl_cons] at ih ⊢
      rw [ih (acc ++ a), ih ("" ++ a)]
      simp [String.append_assoc]
  simp only [String.join, List.foldl_append] at h ⊢
  rw [h l₂]

theorem join_singleton (a : String) : String.join [a] = a := by
  simp [String.join]

theorem intercalate_go (s acc : String) (l : List String) :
    String.intercalate.go acc s l = acc ++ String.join (l.map fun a => s ++ a) := by
  induction l generalizing acc with
  | nil => simp [String.intercalate.go, String.join]
  | cons a l ih =>
    rw [String.intercalate.go, ih, List.map_cons, ← List.singleton_append, join_append,
      join_singleton]
    simp [String.append_assoc]

theorem intercalate_cons (s a : String) (l : List String) :
    String.intercalate s (a :: l) = a ++ String.join (l.map fun b => s ++ b) := by
  rw [String.intercalate, intercalate_go]

theorem intercalate_concat (s x : String) (l : List String) :
    String.intercalate s (l ++ [x]) =
      if l = [] then x else String.intercalate s l ++ (s ++ x) := by
  cases l with
  | nil => simp [String.intercalate, String.intercalate.go]
  | cons a l =>
    simp only [List.cons_append, intercalate_cons, List.map_append, join_append, List.map_cons,
      List.map_nil, join_singleton, String.append_assoc]
    simp

theorem forLoop_zero {σ : Type} (body : Nat → σ → σ) (init : σ) :
    forLoop 0 body init = init := by
  simp [forLoop]

theorem forLoop_succ {σ : Type} (n : Nat) (body : Nat → σ → σ) (init : σ) :
    forLoop ((n + 1 : Nat) : Int) body init = body (n + 1) (forLoop (n : Int) body init) := by
  simp only [forLoop, Int.toNat_ofNat, List.range'_concat, List.foldl_append, List.foldl_cons,
    List.foldl_nil, Nat.one_mul, Nat.add_comm 1 n]

theorem forLoop_toNat {σ : Type} (n : Int) (body : Nat → σ → σ) (init : σ) :
    forLoop n body init = forLoop (n.toNat : Int) body init := by
  simp only [forLoop, Int.toNat_ofNat]

/-- A loop that writes `name 1, ..., name n` to the builder, each but the very
first item of the list preceded by a comma, extends the comma-separated list. -/
theorem sepLoop_eq (name : Nat → String) (c : Prop) [Decidable c] (pre : List String)
    (hc : c ↔ pre ≠ []) (sb0 : String) (n : Nat) :
    forLoop (n : Int) (fun i sb => (if c ∨ i ≥ 2 then sb ++ "," else sb) ++ name i)
        (sb0 ++ String.intercalate "," pre) =
      sb0 ++ String.intercalate "," (pre ++ (List.range' 1 n).map name) := by
  induction n with
  | zero => simp [forLoop_zero]
  | succ n ih =>
    rw [forLoop_succ, ih, List.range'_concat, List.map_append, ← List.append_assoc]
    simp only [List.map_cons, List.map_nil, intercalate_concat, Nat.one_mul,
      Nat.add_comm 1 n]
    by_cases hpre : pre = []
    · have hnc : ¬ c := fun h => hc.1 h hpre
      cases n with
      | zero => simp [hpre, hnc, String.intercalate]
      | succ m =>
        simp [hpre, hnc, List.range'_succ, String.append_assoc]
    · have hcc : c := hc.2 hpre
      simp [hpre, hcc, String.append_assoc]

theorem sepLoop_first (name : Nat → String) (sb0 : String) (n : Nat) :
    forLoop (n : Int) (fun i sb => (if i ≥ 2 then sb ++ "," else sb) ++ name i) sb0 =
      sb0 ++ String.intercalate "," ((List.range' 1 n).map name) := by
  have h := sepLoop_eq name False [] (by simp) sb0 n
  simpa [String.intercalate] using h

theorem intColNames_ne_nil (n : Int) : n ≥ 1 ↔ intColNames n.toNat ≠ [] := by
  simp only [intColNames, ne_eq, List.map_eq_nil_iff, List.range'_eq_nil]
  omega

/-- Closed form of `buildSelectStmt`. -/
theorem buildSelectStmt_eq {R : Type} (data : Data R) (key : Bool) :
    buildSelectStmt data key =
      if key then
        (nextId data).map fun r =>
          ((selectText data.opts.NumberIntCols.toNat data.opts.NumberCharCols.toNat true,
            [Arg.str r.1]), r.2)
      else
        some ((selectText data.opts.NumberIntCols.toNat data.opts.NumberCharCols.toNat false,
          []), data) := by
  have h1 := sepLoop_first (fun i => "intcol" ++ toString i) "SELECT "
    data.opts.NumberIntCols.toNat
  have h2 := sepLoop_eq (fun i => "charcol" ++ toString i) (data.opts.NumberIntCols ≥ 1)
    (intColNames data.opts.NumberIntCols.toNat) (intColNames_ne_nil _) "SELECT "
    data.opts.NumberCharCols.toNat
  rw [← forLoop_toNat] at h1 h2
  simp only [buildSelectStmt, h1, AutoGenerateTableName]
  simp only [intColNames] at h2
  simp only [ge_iff_le] at h2 ⊢
  rw [h2]
  cases key with
  | false => simp [selectText, intColNames, charColNames, String.append_assoc]
  | true =>
    cases hid : nextId data with
    | none => simp [hid]
    | some r =>
      obtain ⟨id, d⟩ := r
      simp [hid, selectText, intColNames, charColNames, String.append_assoc]

theorem join_replicate_succ (n : Nat) (a : String) :
    String.join (List.replicate (n + 1) a) = String.join (List.replicate n a) ++ a := by
  rw [List.replicate_succ', join_append, join_singleton]

theorem placeholderList_succ (p n : Nat) :
    placeholderList p (n + 1) = placeholderList p n ++ (",$" ++ toString (p + n)) := by
  simp only [placeholderList, List.range'_concat, List.map_append, join_append, List.map_cons,
    List.map_nil, join_singleton, Nat.one_mul]

theorem placeholderList_add (p m n : Nat) :
    placeholderList p m ++ placeholderList (p + m) n = placeholderList p (m + n) := by
  simp only [placeholderList, ← join_append, ← List.map_append]
  rw [Nat.add_comm m n, ← List.range'_append_1]

theorem uuidLoop_eq (sb0 : String) (n : Nat) :
    forLoop (n : Int) (fun _ sb => sb ++ ",gen_random_uuid()") sb0 =
      sb0 ++ String.join (List.replicate n ",gen_random_uuid()") := by
  induction n with
  | zero => simp [forLoop_zero, String.join]
  | succ n ih => rw [forLoop_succ, ih, join_replicate_succ, String.append_assoc]

theorem insertLoop_eq {R : Type} (draw : R → Arg × R) (st0 : GenState R) (n : Nat) :
    forLoop (n : Int)
        (fun _ (st : GenState R) =>
          ({ sb := st.sb ++ (",$" ++ toString st.phIdx), phIdx := st.phIdx + 1,
             args := st.args ++ [(draw st.randSrc).1], randSrc := (draw st.randSrc).2 } :
            GenState R)) st0 =
      { sb := st0.sb ++ placeholderList st0.phIdx n, phIdx := st0.phIdx + n,
        args := st0.args ++ (drawArgs draw n st0.randSrc).1,
        randSrc := (drawArgs draw n st0.randSrc).2 } := by
  induction n with
  | zero => simp [forLoop_zero, placeholderList, drawArgs, String.join]
  | succ n ih =>
    rw [forLoop_succ, ih]
    simp [placeholderList_succ, drawArgs, String.append_assoc, Nat.add_assoc]

theorem updateLoop_eq {R : Type} (name : Nat → String) (c : Prop) [Decidable c]
    (pre : List String) (hc : c ↔ pre ≠ []) (draw : R → Arg × R) (sb0 : String) (q : Nat)
    (a0 : List Arg) (rs : R) (n : Nat) :
    forLoop (n : Int)
        (fun i (st : GenState R) =>
          ({ sb := (if c ∨ i ≥ 2 then st.sb ++ "," else st.sb) ++
               (name i ++ " = $" ++ toString st.phIdx),
             phIdx := st.phIdx + 1,
             args := st.args ++ [(draw st.randSrc).1], randSrc := (draw st.randSrc).2 } :
            GenState R))
        { sb := sb0 ++ String.intercalate "," pre, phIdx := q + 1, args := a0, randSrc := rs } =
      { sb := sb0 ++ String.intercalate ","
          (pre ++ (List.range' 1 n).map fun i => name i ++ " = $" ++ toString (q + i)),
        phIdx := q + n + 1,
        args := a0 ++ (drawArgs draw n rs).1,
        randSrc := (drawArgs draw n rs).2 } := by
  induction n with
  | zero => simp [forLoop_zero, drawArgs]
  | succ n ih =>
    rw [forLoop_succ, ih, List.range'_concat, List.map_append, ← List.append_assoc]
    simp only [List.map_cons, List.map_nil, intercalate_concat, Nat.one_mul,
      Nat.add_comm 1 n, drawArgs]
    by_cases hpre : pre = []
    · have hnc : ¬ c := fun h => hc.1 h hpre
      cases n with
      | zero => simp [hpre, hnc, String.intercalate]
      | succ m =>
        simp [hpre, hnc, List.range'_succ, String.append_assoc, Nat.add_assoc]
    · have hcc : c := hc.2 hpre
      simp [hpre, hcc, String.append_assoc, Nat.add_assoc]

/-- Closed form of `buildInsertStmt`. -/
theorem buildInsertStmt_eq {R : Type} (ops : RandOps R) (data : Data R) :
    buildInsertStmt ops data =
      ((insertText data.opts.NumberSecondaryIndexes.toNat data.opts.NumberIntCols.toNat
          data.opts.NumberCharCols.toNat,
        (insertArgs ops data.opts.NumberIntCols.toNat data.opts.NumberCharCols.toNat
          data.randSrc).1),
       { data with randSrc := (insertArgs ops data.opts.NumberIntCols.toNat
          data.opts.NumberCharCols.toNat data.randSrc).2 }) := by
  have h0 := uuidLoop_eq "INSERT INTO t1 VALUES (DEFAULT" data.opts.NumberSecondaryIndexes.toNat
  have h1 := fun st0 => insertLoop_eq (drawInt ops) st0 data.opts.NumberIntCols.toNat
  have h2 := fun st0 => insertLoop_eq (drawStr ops) st0 data.opts.NumberCharCols.toNat
  simp only [drawInt, drawStr] at h1 h2
  rw [← forLoop_toNat] at h0
  simp only [← forLoop_toNat] at h1 h2
  simp only [buildInsertStmt, AutoGenerateTableName]
  rw [show "INSERT INTO " ++ "t1" ++ " VALUES (DEFAULT" = "INSERT INTO t1 VALUES (DEFAULT" from rfl,
    h0, h1, h2]
  simp only [insertText, insertArgs, String.append_assoc, ← placeholderList_add, List.nil_append,
    Nat.add_comm 1]

theorem updateLoop_first {R : Type} (name : Nat → String) (draw : R → Arg × R) (sb0 : String)
    (a0 : List Arg) (rs : R) (n : Nat) :
    forLoop (n : Int)
        (fun i (st : GenState R) =>
          ({ sb := (if i ≥ 2 then st.sb ++ "," else st.sb) ++
               (name i ++ " = $" ++ toString st.phIdx),
             phIdx := st.phIdx + 1,
             args := st.args ++ [(draw st.randSrc).1], randSrc := (draw st.randSrc).2 } :
            GenState R))
        { sb := sb0, phIdx := 1, args := a0, randSrc := rs } =
      { sb := sb0 ++ String.intercalate ","
          ((List.range' 1 n).map fun i => name i ++ " = $" ++ toString i),
        phIdx := n + 1,
        args := a0 ++ (drawArgs draw n rs).1,
        randSrc := (drawArgs draw n rs).2 } := by
  have h := updateLoop_eq name False [] (by simp) draw sb0 0 a0 rs n
  simpa [String.intercalate] using h

theorem updateInts_ne_nil (n : Int) :
    n ≥ 1 ↔ ((List.range' 1 n.toNat).map fun i => "intcol" ++ toString i ++ " = $" ++ toString i)
      ≠ [] := by
  simp only [ne_eq, List.map_eq_nil_iff, List.range'_eq_nil]
  omega

/-- Closed form of `buildUpdateStmt`. -/
theorem buildUpdateStmt_eq {R : Type} (ops : RandOps R) (data : Data R) :
    buildUpdateStmt ops data =
      (nextId { data with randSrc := (insertArgs ops data.opts.NumberIntCols.toNat
          data.opts.NumberCharCols.toNat data.randSrc).2 }).map fun r =>
        ((updateText data.opts.NumberIntCols.toNat data.opts.NumberCharCols.toNat,
          (insertArgs ops data.opts.NumberIntCols.toNat data.opts.NumberCharCols.toNat
            data.randSrc).1 ++ [Arg.str r.1]), r.2) := by
  have h1 := updateLoop_first (fun i => "intcol" ++ toString i) (drawInt ops) "UPDATE t1 SET "
    [] data.randSrc data.opts.NumberIntCols.toNat
  have h2 := fun a0 rs => updateLoop_eq (fun i => "charcol" ++ toString i)
    (data.opts.NumberIntCols ≥ 1) _ (updateInts_ne_nil data.opts.NumberIntCols) (drawStr ops)
    "UPDATE t1 SET " data.opts.NumberIntCols.toNat a0 rs data.opts.NumberCharCols.toNat
  simp only [drawInt, drawStr] at h1 h2
  simp only [← forLoop_toNat, ge_iff_le] at h1 h2
  simp only [buildUpdateStmt, AutoGenerateTableName, ge_iff_le]
  rw [show "UPDATE " ++ "t1" ++ " SET " = "UPDATE t1 SET " from rfl, h1, h2]
  simp only [updateText, updateAssignments, insertArgs, String.append_assoc, List.nil_append]
  cases hid : nextId _ with
  | none => simp
  | some r =>
    obtain ⟨id, d⟩ := r
    simp

/-! ## One call to `next` -/

theorem effIdx_lt {R : Type} (data : Data R) (h : data.idList ≠ []) :
    effIdx data < data.idList.length := by
  have hpos : 0 < data.idList.length := List.length_pos.2 h
  unfold effIdx
  split <;> omega

theorem effIdx_eq_mod {R : Type} (data : Data R) (hle : data.idIdx ≤ data.idList.length) :
    effIdx data = data.idIdx % data.idList.length := by
  unfold effIdx
  split
  · have : data.idIdx = data.idList.length := by omega
    rw [this, Nat.mod_self]
  · rw [Nat.mod_eq_of_lt (by omega)]

theorem nextId_eq {R : Type} (data : Data R) (h : data.idList ≠ []) :
    nextId data = some (data.idList.get ⟨effIdx data, effIdx_lt data h⟩,
      { data with idIdx := effIdx data + 1 }) := by
  have hlt := effIdx_lt data h
  simp only [nextId]
  rw [show (if data.idIdx ≥ data.idList.length then 0 else data.idIdx) = effIdx data from rfl,
    List.getElem?_eq_getElem hlt]
  rfl

theorem nextId_nil {R : Type} (data : Data R) (h : data.idList = []) : nextId data = none := by
  simp [nextId, h]

/-- A control call returns `COMMIT` or `BEGIN` with no arguments and touches
the transaction counters only. -/
theorem next_control {R : Type} (ops : RandOps R) (data : Data R)
    (h : isControlCall data = true) :
    (next ops data = some (("COMMIT", []), { data with commitCnt := 0, committed := true }) ∧
        (data.commitCnt : Int) = data.opts.CommitRate) ∨
      (next ops data = some (("BEGIN", []), { data with committed := false }) ∧
        (data.commitCnt : Int) ≠ data.opts.CommitRate ∧ data.committed = true) := by
  simp only [isControlCall, Bool.and_eq_true, decide_eq_true_eq, Bool.or_eq_true] at h
  obtain ⟨hN, hc⟩ := h
  by_cases heq : (data.commitCnt : Int) = data.opts.CommitRate
  · left; simp [next, hN, heq]
  · right
    have hcm : data.committed = true := by
      rcases hc with hc | hc
      · exact absurd hc heq
      · exact hc
    simp [next, hN, heq, hcm]

/-- A non-control call is the generation below the commit grouping, after the
count of statements since `BEGIN` went up by one when grouping is on. -/
theorem next_not_control {R : Type} (ops : RandOps R) (data : Data R)
    (h : isControlCall data = false) :
    next ops data = nextGen ops { data with commitCnt :=
      if 0 < data.opts.CommitRate then data.commitCnt + 1 else data.commitCnt } := by
  simp only [isControlCall, Bool.and_eq_false_eq_eq_false_or_eq_false, decide_eq_false_iff_not,
    Bool.or_eq_false_iff] at h
  by_cases hN : 0 < data.opts.CommitRate
  · rcases h with h | ⟨h1, h2⟩
    · exact absurd hN h
    · simp [next, hN, h1, h2]
  · simp [next, hN]

theorem nextGen_queries {R : Type} (ops : RandOps R) (data : Data R)
    (hq : data.queryIdx < data.opts.Queries.length) :
    nextGen ops data = some ((data.opts.Queries.get ⟨data.queryIdx, hq⟩, []),
      { data with queryIdx :=
          if data.queryIdx + 1 = data.opts.Queries.length then 0 else data.queryIdx + 1 }) := by
  have hpos : 0 < data.opts.Queries.length := by omega
  simp only [nextGen, hpos, if_true]
  rw [List.getElem?_eq_getElem hq]
  rfl

theorem nextGen_key {R : Type} (ops : RandOps R) (data : Data R)
    (hq : data.opts.Queries = []) (hl : data.opts.LoadType = LoadTypeKey) :
    nextGen ops data = buildSelectStmt data true := by
  simp [nextGen, hq, hl, LoadTypeKey, LoadTypeMixed, LoadTypeUpdate, LoadTypeWrite]

theorem nextGen_read {R : Type} (ops : RandOps R) (data : Data R)
    (hq : data.opts.Queries = []) (hl : data.opts.LoadType = LoadTypeRead) :
    nextGen ops data = buildSelectStmt data false := by
  simp [nextGen, hq, hl, LoadTypeKey, LoadTypeMixed, LoadTypeUpdate, LoadTypeWrite, LoadTypeRead]

theorem nextGen_write {R : Type} (ops : RandOps R) (data : Data R)
    (hq : data.opts.Queries = []) (hl : data.opts.LoadType = LoadTypeWrite) :
    nextGen ops data = some (buildInsertStmt ops data) := by
  simp [nextGen, hq, hl, LoadTypeMixed, LoadTypeUpdate, LoadTypeWrite]

theorem nextGen_update {R : Type} (ops : RandOps R) (data : Data R)
    (hq : data.opts.Queries = []) (hl : data.opts.LoadType = LoadTypeUpdate) :
    nextGen ops data = buildUpdateStmt ops data := by
  simp [nextGen, hq, hl, LoadTypeMixed, LoadTypeUpdate]

theorem nextGen_mixed {R : Type} (ops : RandOps R) (data : Data R)
    (hq : data.opts.Queries = []) (hl : data.opts.LoadType = LoadTypeMixed) :
    nextGen ops data =
      ((if (data.mixedIdx : Int) < data.opts.MixedSelRatio then buildSelectStmt data true
        else some (buildInsertStmt ops data)).map fun r =>
        (r.1, { r.2 with mixedIdx :=
          if ((r.2.mixedIdx + 1 : Nat) : Int) ≥ addInt64 r.2.opts.MixedSelRatio r.2.opts.MixedInsRatio
          then 0 else r.2.mixedIdx + 1 })) := by
  simp only [nextGen, hq, hl, List.length_nil, Nat.lt_irrefl, if_false, if_true]
  cases (if (data.mixedIdx : Int) < data.opts.MixedSelRatio then buildSelectStmt data true
        else some (buildInsertStmt ops data)) with
  | none => rfl
  | some r => rfl

theorem nextGen_invalid {R : Type} (ops : RandOps R) (data : Data R)
    (hq : data.opts.Queries = [])
    (hl : data.opts.LoadType ∉
      [LoadTypeMixed, LoadTypeUpdate, LoadTypeWrite, LoadTypeKey, LoadTypeRead]) :
    nextGen ops data = none := by
  simp only [List.mem_cons, List.mem_singleton, not_or, List.mem_nil_iff, or_false] at hl
  simp [nextGen, hq, hl]

theorem firstChar_append (a b : String) (c : Char) (h : firstChar a = some c) :
    firstChar (a ++ b) = some c := by
  simp only [firstChar, String.data_append] at h ⊢
  cases ha : a.data with
  | nil => simp [ha] at h
  | cons x xs => simpa [ha] using h

theorem firstChar_selectText (nInt nChar : Nat) (key : Bool) :
    firstChar (selectText nInt nChar key) = some 'S' := by
  unfold selectText
  exact firstChar_append _ _ _ (firstChar_append _ _ _ (firstChar_append _ _ _ rfl))

theorem firstChar_insertText (nSec nInt nChar : Nat) :
    firstChar (insertText nSec nInt nChar) = some 'I' := by
  unfold insertText
  exact firstChar_append _ _ _ (firstChar_append _ _ _ (firstChar_append _ _ _ rfl))

theorem firstChar_updateText (nInt nChar : Nat) :
    firstChar (updateText nInt nChar) = some 'U' := by
  unfold updateText
  exact firstChar_append _ _ _ (firstChar_append _ _ _ (firstChar_append _ _ _ rfl))

/-- A text that starts with `S`, `I` or `U` is neither `COMMIT` nor `BEGIN`. -/
theorem not_control_text (s : String)
    (h : firstChar s = some 'S' ∨ firstChar s = some 'I' ∨ firstChar s = some 'U') :
    s ≠ "COMMIT" ∧ s ≠ "BEGIN" := by
  constructor
  · rintro rfl
    rcases h with h | h | h <;> exact absurd h (by decide)
  · rintro rfl
    rcases h with h | h | h <;> exact absurd h (by decide)

/-- On a runnable configuration the generation returns; it leaves the options,
the id list and the transaction counters alone, keeps the cursor of the fixed
list in range, and a generated statement is neither `COMMIT` nor `BEGIN`. -/
theorem nextGen_total {R : Type} (ops : RandOps R) (d : Data R)
    (hr : Runnable d.opts d.idList)
    (hq : d.opts.Queries ≠ [] → d.queryIdx < d.opts.Queries.length) :
    ∃ out d', nextGen ops d = some (out, d') ∧ d'.opts = d.opts ∧ d'.idList = d.idList ∧
      d'.commitCnt = d.commitCnt ∧ d'.committed = d.committed ∧
      (d'.opts.Queries ≠ [] → d'.queryIdx < d'.opts.Queries.length) ∧
      (d.opts.Queries = [] → out.1 ≠ "COMMIT" ∧ out.1 ≠ "BEGIN") := by
  by_cases hQ : d.opts.Queries = []
  · have hsel : ∀ key : Bool, (key = true → d.idList ≠ []) →
        ∃ out d', buildSelectStmt d key = some (out, d') ∧ d'.opts = d.opts ∧
          d'.idList = d.idList ∧ d'.commitCnt = d.commitCnt ∧ d'.committed = d.committed ∧
          d'.queryIdx = d.queryIdx ∧ d'.mixedIdx = d.mixedIdx ∧
          firstChar out.1 = some 'S' := by
      intro key hk
      rw [buildSelectStmt_eq]
      cases key with
      | false => exact ⟨_, _, rfl, rfl, rfl, rfl, rfl, rfl, rfl, firstChar_selectText _ _ _⟩
      | true =>
        rw [if_pos rfl, nextId_eq d (hk rfl)]
        exact ⟨_, _, rfl, rfl, rfl, rfl, rfl, rfl, rfl, firstChar_selectText _ _ _⟩
    have hins : ∃ out d', buildInsertStmt ops d = (out, d') ∧ d'.opts = d.opts ∧
          d'.idList = d.idList ∧ d'.commitCnt = d.commitCnt ∧ d'.committed = d.committed ∧
          d'.queryIdx = d.queryIdx ∧ d'.mixedIdx = d.mixedIdx ∧
          firstChar out.1 = some 'I' := by
      rw [buildInsertStmt_eq]
      exact ⟨_, _, rfl, rfl, rfl, rfl, rfl, rfl, rfl, firstChar_insertText _ _ _⟩
    have hq0 : ∀ d' : Data R, d'.opts = d.opts → d'.opts.Queries ≠ [] →
        d'.queryIdx < d'.opts.Queries.length := by
      intro d' ho hne
      rw [ho] at hne
      exact absurd hQ hne
    rcases hr with hr | hr | hr | ⟨hr | hr | hr, hid⟩
    · exact absurd hQ hr
    · obtain ⟨out, d', h, h1, h2, h3, h4, _, _, hc⟩ := hins
      rw [nextGen_write ops d hQ hr, h]
      exact ⟨out, d', rfl, h1, h2, h3, h4, hq0 d' h1, fun _ => not_control_text _ (Or.inr (Or.inl hc))⟩
    · obtain ⟨out, d', h, h1, h2, h3, h4, _, _, hc⟩ := hsel false (by simp)
      rw [nextGen_read ops d hQ hr, h]
      exact ⟨out, d', rfl, h1, h2, h3, h4, hq0 d' h1, fun _ => not_control_text _ (Or.inl hc)⟩
    · obtain ⟨out, d', h, h1, h2, h3, h4, _, _, hc⟩ := hsel true (fun _ => hid)
      rw [nextGen_key ops d hQ hr, h]
      exact ⟨out, d', rfl, h1, h2, h3, h4, hq0 d' h1, fun _ => not_control_text _ (Or.inl hc)⟩
    · rw [nextGen_update ops d hQ hr, buildUpdateStmt_eq,
        nextId_eq ({ d with randSrc := (insertArgs ops d.opts.NumberIntCols.toNat
          d.opts.NumberCharCols.toNat d.randSrc).2 } : Data R) hid]
      exact ⟨_, _, rfl, rfl, rfl, rfl, rfl, hq0 _ rfl,
        fun _ => not_control_text _ (Or.inr (Or.inr (firstChar_updateText _ _)))⟩
    · rw [nextGen_mixed ops d hQ hr]
      by_cases hm : (d.mixedIdx : Int) < d.opts.MixedSelRatio
      · obtain ⟨out, d', h, h1, h2, h3, h4, _, _, hc⟩ := hsel true (fun _ => hid)
        rw [if_pos hm, h]
        exact ⟨out, _, rfl, h1, h2, h3, h4, hq0 _ h1, fun _ => not_control_text _ (Or.inl hc)⟩
      · obtain ⟨out, d', h, h1, h2, h3, h4, _, _, hc⟩ := hins
        rw [if_neg hm, h]
        exact ⟨out, _, rfl, h1, h2, h3, h4, hq0 _ h1,
          fun _ => not_control_text _ (Or.inr (Or.inl hc))⟩
  · have hlt := hq hQ
    rw [nextGen_queries ops d hlt]
    refine ⟨_, _, rfl, rfl, rfl, rfl, rfl, fun _ => ?_, fun h => absurd h hQ⟩
    show (if d.queryIdx + 1 = d.opts.Queries.length then 0 else d.queryIdx + 1) <
      d.opts.Queries.length
    split <;> omega

/-! ## Commit grouping -/

theorem succ_mod_cycle (N p : Nat) (hp : p < N + 2) :
    (p + 1) % (N + 2) = if p = N + 1 then 0 else p + 1 := by
  split
  · next h => subst h; exact Nat.mod_self _
  · next h => exact Nat.mod_eq_of_lt (by omega)

/-- One call of a generator at position `p` of the commit cycle. -/
theorem next_phase {R : Type} (ops : RandOps R) (opts : DataOpts) (idList : List String)
    (N : Nat) (hN : 0 < N) (hrate : opts.CommitRate = N) (hrun : Runnable opts idList)
    (d : Data R) (p : Nat) (hs : Steady opts idList d) (hp : Phase N d p) :
    ∃ out d', next ops d = some (out, d') ∧ Steady opts idList d' ∧
      Phase N d' ((p + 1) % (N + 2)) ∧ isControlCall d = decide (N ≤ p) ∧
      (p < N → opts.Queries = [] → out.1 ≠ "COMMIT" ∧ out.1 ≠ "BEGIN") ∧
      (p = N → out = ("COMMIT", [])) ∧ (p = N + 1 → out = ("BEGIN", [])) := by
  obtain ⟨ho, hl, hq⟩ := hs
  have hrate' : d.opts.CommitRate = (N : Int) := by rw [ho, hrate]
  have hpos : 0 < d.opts.CommitRate := by rw [hrate']; exact_mod_cast hN
  rcases hp with ⟨hpN, hc, hcm⟩ | ⟨hpN, hc, hcm⟩
  · rw [succ_mod_cycle N p (by omega), if_neg (by omega)]
    by_cases hlt : p < N
    · have hctl : isControlCall d = false := by
        simp only [isControlCall, hrate', hc, hcm, Bool.or_false, Bool.and_eq_false_iff,
          decide_eq_false_iff_not]
        right; exact_mod_cast (by omega : p ≠ N)
      have hr' : Runnable ({ d with commitCnt := d.commitCnt + 1 } : Data R).opts
          ({ d with commitCnt := d.commitCnt + 1 } : Data R).idList := by
        show Runnable d.opts d.idList
        rw [ho, hl]; exact hrun
      obtain ⟨out, d', hgen, h1, h2, h3, h4, h5, h6⟩ :=
        nextGen_total ops ({ d with commitCnt := d.commitCnt + 1 } : Data R) hr' hq
      refine ⟨out, d', ?_, ⟨h1.trans ho, h2.trans hl, h5⟩, Or.inl ⟨by omega, ?_, ?_⟩, ?_, ?_, ?_, ?_⟩
      · rw [next_not_control ops d hctl, if_pos hpos]; exact hgen
      · rw [h3]; show d.commitCnt + 1 = p + 1; rw [hc]
      · rw [h4]; exact hcm
      · rw [hctl]; symm; simp; omega
      · intro _ hQ; exact h6 (by show d.opts.Queries = []; rw [ho]; exact hQ)
      · intro h; omega
      · intro h; omega
    · have hpe : p = N := by omega
      have hctl : isControlCall d = true := by
        simp [isControlCall, hrate', hc, hpe, hN]
      rcases next_control ops d hctl with ⟨h, _⟩ | ⟨_, hne, _⟩
      · refine ⟨_, _, h, ⟨ho, hl, hq⟩, Or.inr ⟨by omega, rfl, rfl⟩, ?_, ?_, ?_, ?_⟩
        · rw [hctl]; symm; simp; omega
        · intro h; omega
        · intro _; rfl
        · intro h; omega
      · exact absurd (by rw [hrate', hc, hpe]) hne
  · rw [succ_mod_cycle N p (by omega), if_pos hpN]
    have hctl : isControlCall d = true := by
      simp [isControlCall, hrate', hcm, hN]
    rcases next_control ops d hctl with ⟨_, he⟩ | ⟨h, _, _⟩
    · rw [hrate', hc] at he
      have : (0 : Nat) = N := by exact_mod_cast he
      omega
    · refine ⟨_, _, h, ⟨ho, hl, hq⟩, Or.inl ⟨by omega, hc, rfl⟩, ?_, ?_, ?_, ?_⟩
      · rw [hctl]; symm; simp; omega
      · intro h; omega
      · intro h; omega
      · intro _; rfl

/-- The generator after `k` calls from position `p` is at position
`(p + k) mod (N + 2)`. -/
theorem afterCalls_phase {R : Type} (ops : RandOps R) (opts : DataOpts) (idList : List String)
    (N : Nat) (hN : 0 < N) (hrate : opts.CommitRate = N) (hrun : Runnable opts idList)
    (k : Nat) : ∀ (d : Data R) (p : Nat), p < N + 2 → Steady opts idList d → Phase N d p →
      ∃ d', afterCalls ops k d = some d' ∧ Steady opts idList d' ∧
        Phase N d' ((p + k) % (N + 2)) := by
  induction k with
  | zero =>
    intro d p hp hs hph
    exact ⟨d, rfl, hs, by rwa [Nat.add_zero, Nat.mod_eq_of_lt hp]⟩
  | succ k ih =>
    intro d p hp hs hph
    obtain ⟨out, d1, hnext, hs1, hph1, _⟩ := next_phase ops opts idList N hN hrate hrun d p hs hph
    obtain ⟨d', h, hs', hph'⟩ := ih d1 ((p + 1) % (N + 2)) (Nat.mod_lt _ (by omega)) hs1 hph1
    refine ⟨d', ?_, hs', ?_⟩
    · simp only [afterCalls, hnext]; exact h
    · rw [Nat.mod_add_mod] at hph'
      rwa [show p + (k + 1) = p + 1 + k by omega]

theorem initStmts_eq {R : Type} (d : Data R) :
    initStmts d = d.opts.PreQueries ++ (if 0 < d.opts.CommitRate then ["BEGIN"] else []) := by
  unfold initStmts
  cases hP : d.opts.PreQueries with
  | nil => by_cases h : 0 < d.opts.CommitRate <;> simp [h]
  | cons a l => by_cases h : 0 < d.opts.CommitRate <;> simp [h]

/-- Claim C1. With commit rate `N > 0`, on a configuration whose generation does
not panic, the init statements of a fresh generator end in `BEGIN` and the
`k`-th call to `next` (from 0) returns: a non-control statement when
`k mod (N+2) < N` (the call is answered by the generation, after
`k mod (N+2)` statements since `BEGIN`, and a generated text is neither
`COMMIT` nor `BEGIN`); `COMMIT` with no arguments when `k mod (N+2) = N`, after
exactly `N` statements since `BEGIN`; and `BEGIN` with no arguments when
`k mod (N+2) = N+1`, the call right after a `COMMIT`. -/
theorem commit_grouping_stream {R : Type} (ops : RandOps R) (opts : DataOpts)
    (idList : List String) (seed : R) (N : Nat) (hN : 0 < N) (hrate : opts.CommitRate = N)
    (hrun : Runnable opts idList) (k : Nat) :
    initStmts (newData opts idList seed) = opts.PreQueries ++ ["BEGIN"] ∧
    ∃ d out d', afterCalls ops k (newData opts idList seed) = some d ∧
      nthCall ops k (newData opts idList seed) = some (out, d') ∧
      (k % (N + 2) < N → isControlCall d = false ∧ d.commitCnt = k % (N + 2) ∧
        (opts.Queries = [] → out.1 ≠ "COMMIT" ∧ out.1 ≠ "BEGIN")) ∧
      (k % (N + 2) = N → isControlCall d = true ∧ d.commitCnt = N ∧ out = ("COMMIT", [])) ∧
      (k % (N + 2) = N + 1 → isControlCall d = true ∧ out = ("BEGIN", [])) := by
  have hpos : (0 : Int) < opts.CommitRate := by rw [hrate]; exact_mod_cast hN
  constructor
  · rw [initStmts_eq]
    show opts.PreQueries ++ (if 0 < opts.CommitRate then ["BEGIN"] else []) = _
    rw [if_pos hpos]
  · have hs0 : Steady opts idList (newData opts idList seed) :=
      ⟨rfl, rfl, fun _ => by
        show 0 < opts.Queries.length
        exact List.length_pos.2 ‹_›⟩
    have hp0 : Phase N (newData opts idList seed) 0 := Or.inl ⟨Nat.zero_le _, rfl, rfl⟩
    obtain ⟨d, hd, hs, hph⟩ := afterCalls_phase ops opts idList N hN hrate hrun k
      (newData opts idList seed) 0 (by omega) hs0 hp0
    rw [Nat.zero_add] at hph
    have hlt : k % (N + 2) < N + 2 := Nat.mod_lt _ (by omega)
    obtain ⟨out, d', hnext, _, _, hctl, h1, h2, h3⟩ :=
      next_phase ops opts idList N hN hrate hrun d (k % (N + 2)) hs hph
    refine ⟨d, out, d', hd, ?_, ?_, ?_, ?_⟩
    · simp only [nthCall, hd]; exact hnext
    · intro h
      refine ⟨by rw [hctl]; simp; omega, ?_, h1 h⟩
      rcases hph with ⟨_, hc, _⟩ | ⟨hc, _, _⟩
      · exact hc
      · omega
    · intro h
      refine ⟨by rw [hctl]; simp; omega, ?_, h2 h⟩
      rcases hph with ⟨_, hc, _⟩ | ⟨hc, _, _⟩
      · rw [hc, h]
      · omega
    · intro h
      exact ⟨by rw [hctl]; simp; omega, h3 h⟩

/-- The theorem `commit_grouping_stream` at rate 2 on the load type `write`:
the call number 2 returns `COMMIT`. -/
theorem commit_grouping_stream_witness :
    (0 < 2) ∧ Runnable { sampleOpts "write" with CommitRate := 2 } [] ∧
      ∃ d out d',
        afterCalls counterOps 2 (newData { sampleOpts "write" with CommitRate := 2 } [] 0) =
          some d ∧
        nthCall counterOps 2 (newData { sampleOpts "write" with CommitRate := 2 } [] 0) =
          some (out, d') ∧ out = ("COMMIT", []) := by
  obtain ⟨_, d, out, d', h1, h2, _, h3, _⟩ :=
    commit_grouping_stream counterOps { sampleOpts "write" with CommitRate := 2 } [] 0 2
      (by decide) rfl (Or.inr (Or.inl rfl)) 2
  exact ⟨by decide, Or.inr (Or.inl rfl), d, out, d', h1, h2, (h3 (by decide)).2.2⟩

/-! ## The stream of non-control calls -/

theorem succ_mod_eq (j n : Nat) (hn : 0 < n) :
    (j + 1) % n = if j % n + 1 = n then 0 else j % n + 1 := by
  have hlt : j % n < n := Nat.mod_lt _ hn
  rw [← Nat.mod_add_mod]
  split
  · next h => rw [h, Nat.mod_self]
  · next h => exact Nat.mod_eq_of_lt (by omega)

/-- An invariant `I j` of the generator after `j` non-control calls, kept by
the transaction counters and advanced by the generation with an output in
`P j`, holds along every run: all `k` calls return, the `j`-th non-control
output is in `P (j0 + j)`, and the final state is in `I` at the number of
non-control calls made. Without commit grouping every call is a non-control
call. -/
theorem genOutputs_invariant {R : Type} (ops : RandOps R) (opts : DataOpts)
    (I : Nat → Data R → Prop) (P : Nat → String × List Arg → Prop)
    (hopts : ∀ j d, I j d → d.opts = opts)
    (hctl : ∀ j d c b, I j d → I j { d with commitCnt := c, committed := b })
    (hgen : ∀ j d, I j d → ∃ out d', nextGen ops d = some (out, d') ∧ P j out ∧ I (j + 1) d')
    (k : Nat) : ∀ (d : Data R) (j0 : Nat), I j0 d →
      (trace ops k d).length = k ∧
      (∀ j out, (genOutputs ops k d)[j]? = some out → P (j0 + j) out) ∧
      (opts.CommitRate ≤ 0 → (genOutputs ops k d).length = k) ∧
      ∃ d', afterCalls ops k d = some d' ∧ I (j0 + (genOutputs ops k d).length) d' := by
  induction k with
  | zero =>
    intro d j0 h
    refine ⟨rfl, ?_, fun _ => rfl, d, rfl, by simpa [genOutputs, trace] using h⟩
    intro j out hj
    simp [genOutputs, trace] at hj
  | succ k ih =>
    intro d j0 h
    cases hc : isControlCall d with
    | true =>
      have hnext : ∃ out c b, next ops d = some (out, { d with commitCnt := c, committed := b }) := by
        rcases next_control ops d hc with ⟨h, _⟩ | ⟨h, _⟩
        · exact ⟨_, _, _, h⟩
        · exact ⟨_, d.commitCnt, false, h⟩
      obtain ⟨out, c, b, hnext⟩ := hnext
      obtain ⟨h1, h2, _, d', h3, h4⟩ := ih _ j0 (hctl j0 d c b h)
      have hg : genOutputs ops (k + 1) d =
          genOutputs ops k { d with commitCnt := c, committed := b } := by
        simp [genOutputs, trace, hnext, hc]
      refine ⟨by simp [trace, hnext, h1], ?_, ?_, d',
        by simp only [afterCalls, hnext]; exact h3, ?_⟩
      · rw [hg]; exact h2
      · intro hN
        simp only [isControlCall, Bool.and_eq_true, decide_eq_true_eq, hopts j0 d h] at hc
        omega
      · rw [hg]; exact h4
    | false =>
      have hnext := next_not_control ops d hc
      obtain ⟨out, d1, hg1, hP, hI⟩ := hgen j0 _
        (hctl j0 d (if 0 < d.opts.CommitRate then d.commitCnt + 1 else d.commitCnt) d.committed h)
      rw [show ({ d with commitCnt := if 0 < d.opts.CommitRate then d.commitCnt + 1
          else d.commitCnt, committed := d.committed } : Data R) =
        { d with commitCnt := if 0 < d.opts.CommitRate then d.commitCnt + 1
          else d.commitCnt } from rfl, ← hnext] at hg1
      obtain ⟨h1, h2, h5, d', h3, h4⟩ := ih d1 (j0 + 1) hI
      have hg : genOutputs ops (k + 1) d = out :: genOutputs ops k d1 := by
        simp [genOutputs, trace, hg1, hc]
      refine ⟨by simp [trace, hg1, h1], ?_, fun hN => by rw [hg, List.length_cons, h5 hN],
        d', by simp only [afterCalls, hg1]; exact h3, ?_⟩
      · intro j o hj
        rw [hg] at hj
        cases j with
        | zero =>
          simp only [List.getElem?_cons_zero, Option.some.injEq] at hj
          subst hj; exact hP
        | succ j =>
          rw [List.getElem?_cons_succ] at hj
          have := h2 j o hj
          rwa [show j0 + (j + 1) = j0 + 1 + j by omega]
      · rw [hg, List.length_cons]
        rwa [show j0 + ((genOutputs ops k d1).length + 1) =
          j0 + 1 + (genOutputs ops k d1).length by omega]

/-- Claim C6. With a non-empty fixed statement list of length `n`, whatever the
load type (an invalid one included), the commit rate and the id list: every
call to `next` of a fresh generator returns, the `j`-th non-control call
returns `Queries[j mod n]` with an empty argument list, and after any number
of calls the id cursor, the mixed-mode position and the random source are
what they were at construction while `queryIdx` is below `n`. -/
theorem fixed_queries_cycle {R : Type} (ops : RandOps R) (opts : DataOpts)
    (idList : List String) (seed : R) (hne : opts.Queries ≠ []) (k : Nat) :
    (trace ops k (newData opts idList seed)).length = k ∧
    (∀ j out, (genOutputs ops k (newData opts idList seed))[j]? = some out →
      opts.Queries[j % opts.Queries.length]? = some out.1 ∧ out.2 = []) ∧
    (opts.CommitRate ≤ 0 → (genOutputs ops k (newData opts idList seed)).length = k) ∧
    ∃ d', afterCalls ops k (newData opts idList seed) = some d' ∧
      d'.idIdx = 0 ∧ d'.mixedIdx = 0 ∧ d'.randSrc = seed ∧
      d'.queryIdx < opts.Queries.length := by
  have hn : 0 < opts.Queries.length := List.length_pos.2 hne
  have key := genOutputs_invariant ops opts
    (fun j d => d.opts = opts ∧ d.queryIdx = j % opts.Queries.length ∧ d.idIdx = 0 ∧
      d.mixedIdx = 0 ∧ d.randSrc = seed)
    (fun j out => opts.Queries[j % opts.Queries.length]? = some out.1 ∧ out.2 = [])
    (fun _ _ h => h.1)
    (fun _ _ _ _ h => h)
    (by
      rintro j d ⟨ho, hq, hi, hm, hr⟩
      have hlt : d.queryIdx < d.opts.Queries.length := by
        rw [ho, hq]; exact Nat.mod_lt _ hn
      refine ⟨_, _, nextGen_queries ops d hlt, ⟨?_, rfl⟩, ho, ?_, hi, hm, hr⟩
      · show opts.Queries[j % opts.Queries.length]? = some (d.opts.Queries.get ⟨d.queryIdx, hlt⟩)
        subst ho
        rw [List.getElem?_eq_getElem (Nat.mod_lt _ hn)]
        simp [hq]
      · show (if d.queryIdx + 1 = d.opts.Queries.length then 0 else d.queryIdx + 1) =
          (j + 1) % opts.Queries.length
        rw [succ_mod_eq j _ hn, ho, hq])
    k (newData opts idList seed) 0 ⟨rfl, by simp [newData], rfl, rfl, rfl⟩
  obtain ⟨h1, h2, h3, d', h4, _, h5, h6, h7, h8⟩ := key
  refine ⟨h1, ?_, h3, d', h4, h6, h7, h8, by rw [h5]; exact Nat.mod_lt _ hn⟩
  intro j out hj
  have := h2 j out hj
  rwa [Nat.zero_add] at this

/-- The theorem `fixed_queries_cycle` on a list of two statements under an
invalid load type: three calls return. -/
theorem fixed_queries_cycle_witness :
    ({ sampleOpts "bogus" with Queries := ["SELECT 1", "SELECT 2"] } : DataOpts).Queries ≠ [] ∧
      (trace counterOps 3
        (newData { sampleOpts "bogus" with Queries := ["SELECT 1", "SELECT 2"] } [] 0)).length
        = 3 :=
  ⟨by decide,
    (fixed_queries_cycle counterOps
      { sampleOpts "bogus" with Queries := ["SELECT 1", "SELECT 2"] } [] 0 (by decide) 3).1⟩

/-! ## The id cursor -/

/-- One id-consuming generation on a non-empty id list: the id at the cursor
position `j mod len`, and the cursor moves on. -/
theorem nextId_cycle {R : Type} (d : Data R) (L : List String) (j : Nat) (hL : L ≠ [])
    (hl : d.idList = L) (hle : d.idIdx ≤ L.length) (hmod : d.idIdx % L.length = j % L.length) :
    ∃ id, L[j % L.length]? = some id ∧
      nextId d = some (id, { d with idIdx := j % L.length + 1 }) ∧
      j % L.length + 1 ≤ L.length ∧ (j % L.length + 1) % L.length = (j + 1) % L.length := by
  subst hl
  have hpos : 0 < d.idList.length := List.length_pos.2 hL
  have hlt : j % d.idList.length < d.idList.length := Nat.mod_lt _ hpos
  have he : effIdx d = j % d.idList.length := by rw [effIdx_eq_mod d hle, hmod]
  refine ⟨d.idList.get ⟨j % d.idList.length, hlt⟩, ?_, ?_, hlt, Nat.mod_add_mod _ _ _⟩
  · rw [List.getElem?_eq_getElem hlt]; rfl
  · rw [nextId_eq d hL]
    simp only [he]

/-- Claim C3, amended. For the load types `key` and `update` without a fixed
statement list and a non-empty id list `L`: every call to `next` of a fresh
generator returns, and the `j`-th non-control call (each consumes one id)
carries `L[j mod len L]` as its primary-key argument, the last of the
argument list: the only argument of the key SELECT, the argument of the
`WHERE id` placeholder of the UPDATE. -/
theorem id_cursor_cycle {R : Type} (ops : RandOps R) (opts : DataOpts) (L : List String)
    (seed : R) (hq : opts.Queries = [])
    (hl : opts.LoadType = LoadTypeKey ∨ opts.LoadType = LoadTypeUpdate) (hL : L ≠ [])
    (k : Nat) :
    (trace ops k (newData opts L seed)).length = k ∧
    (opts.CommitRate ≤ 0 → (genOutputs ops k (newData opts L seed)).length = k) ∧
    ∀ j out, (genOutputs ops k (newData opts L seed))[j]? = some out →
      ∃ id, L[j % L.length]? = some id ∧ out.2.getLast? = some (Arg.str id) ∧
        (opts.LoadType = LoadTypeKey → out =
          (selectText opts.NumberIntCols.toNat opts.NumberCharCols.toNat true, [Arg.str id])) ∧
        (opts.LoadType = LoadTypeUpdate → out.1 =
          updateText opts.NumberIntCols.toNat opts.NumberCharCols.toNat) := by
  have hKU : LoadTypeKey ≠ LoadTypeUpdate := by decide
  have key := genOutputs_invariant ops opts
    (fun j d => d.opts = opts ∧ d.idList = L ∧ d.idIdx ≤ L.length ∧
      d.idIdx % L.length = j % L.length)
    (fun j out => ∃ id, L[j % L.length]? = some id ∧ out.2.getLast? = some (Arg.str id) ∧
        (opts.LoadType = LoadTypeKey → out =
          (selectText opts.NumberIntCols.toNat opts.NumberCharCols.toNat true, [Arg.str id])) ∧
        (opts.LoadType = LoadTypeUpdate → out.1 =
          updateText opts.NumberIntCols.toNat opts.NumberCharCols.toNat))
    (fun _ _ h => h.1)
    (fun _ _ _ _ h => h)
    (by
      rintro j d ⟨ho, hi, hle, hmod⟩
      rcases hl with hl | hl
      · obtain ⟨id, h1, h2, h3, h4⟩ := nextId_cycle d L j hL hi hle hmod
        refine ⟨(selectText opts.NumberIntCols.toNat opts.NumberCharCols.toNat true,
          [Arg.str id]), { d with idIdx := j % L.length + 1 }, ?_,
          ⟨id, h1, ?_, fun _ => rfl, fun h => ?_⟩, ?_⟩
        · rw [nextGen_key ops d (by rw [ho]; exact hq) (by rw [ho]; exact hl),
            buildSelectStmt_eq, if_pos rfl, h2, ho]
          rfl
        · simp
        · exact absurd (hl.symm.trans h) hKU
        · exact ⟨ho, hi, h3, h4⟩
      · obtain ⟨id, h1, h2, h3, h4⟩ := nextId_cycle
          ({ d with randSrc := (insertArgs ops d.opts.NumberIntCols.toNat
            d.opts.NumberCharCols.toNat d.randSrc).2 } : Data R) L j hL hi hle hmod
        refine ⟨(updateText d.opts.NumberIntCols.toNat d.opts.NumberCharCols.toNat,
          (insertArgs ops d.opts.NumberIntCols.toNat d.opts.NumberCharCols.toNat
            d.randSrc).1 ++ [Arg.str id]),
          { d with randSrc := (insertArgs ops d.opts.NumberIntCols.toNat
            d.opts.NumberCharCols.toNat d.randSrc).2, idIdx := j % L.length + 1 }, ?_,
          ⟨id, h1, ?_, fun h => ?_, fun _ => ?_⟩, ?_⟩
        · rw [nextGen_update ops d (by rw [ho]; exact hq) (by rw [ho]; exact hl),
            buildUpdateStmt_eq, h2]
          rfl
        · simp
        · exact absurd (h.symm.trans hl) hKU
        · show updateText d.opts.NumberIntCols.toNat d.opts.NumberCharCols.toNat = _
          rw [ho]
        · exact ⟨ho, hi, h3, h4⟩)
    k (newData opts L seed) 0 ⟨rfl, rfl, Nat.zero_le _, rfl⟩
  obtain ⟨h1, h2, h3, _⟩ := key
  refine ⟨h1, h3, ?_⟩
  intro j out hj
  have := h2 j out hj
  rwa [Nat.zero_add] at this

/-- The theorem `id_cursor_cycle` on the id list `a, b, c` under the load type
`key`: the successive calls carry `a`, `b`, `c` and the fourth wraps to `a`. -/
theorem id_cursor_cycle_witness :
    (sampleOpts "key").Queries = [] ∧ ["a", "b", "c"] ≠ ([] : List String) ∧
      (genOutputs counterOps 4 (newData (sampleOpts "key") ["a", "b", "c"] 0)).map Prod.snd =
        [[Arg.str "a"], [Arg.str "b"], [Arg.str "c"], [Arg.str "a"]] ∧
      (trace counterOps 4 (newData (sampleOpts "key") ["a", "b", "c"] 0)).length = 4 :=
  ⟨rfl, by decide, by decide,
    (id_cursor_cycle counterOps (sampleOpts "key") ["a", "b", "c"] 0 rfl (Or.inl rfl)
      (by decide) 4).1⟩

/-- Claim C3, as stated, fails on the empty id list: the first call of the load
type `key` (and of `update`) panics on the index into the empty list, so no
id is passed. -/
theorem id_cursor_empty_list_panics :
    next counterOps (newData (sampleOpts "key") [] 0) = none ∧
      next counterOps (newData (sampleOpts "update") [] 0) = none := by
  constructor <;> rfl

/-! ## Mixed mode -/

theorem countP_lt_range (S n : Nat) :
    (List.range n).countP (fun j => decide (j < S)) = min S n := by
  induction n with
  | zero => simp
  | succ n ih =>
    rw [List.range_succ, List.countP_append, ih]
    by_cases h : n < S
    · simp [h]; omega
    · simp [h]; omega

/-- Any window of `T` consecutive positions holds exactly `S` positions `j`
with `j mod T < S`. -/
theorem countP_window (T S : Nat) (hS : S ≤ T) (a : Nat) :
    (List.range' a T).countP (fun j => decide (j % T < S)) = S := by
  induction a with
  | zero =>
    rw [← List.range_eq_range']
    have : (List.range T).countP (fun j => decide (j % T < S)) =
        (List.range T).countP (fun j => decide (j < S)) := by
      apply List.countP_congr
      intro j hj
      rw [List.mem_range] at hj
      simp [Nat.mod_eq_of_lt hj]
    rw [this, countP_lt_range]; omega
  | succ a ih =>
    cases T with
    | zero => simp at hS ⊢; omega
    | succ T =>
      have h1 : List.range' a (T + 1) = a :: List.range' (a + 1) T := by
        simp [List.range'_succ]
      have h2 : List.range' (a + 1) (T + 1) = List.range' (a + 1) T ++ [a + 1 + T] := by
        rw [List.range'_concat]; simp
      rw [h1, List.countP_cons] at ih
      have : (a + 1 + T) % (T + 1) = a % (T + 1) := by
        rw [show a + 1 + T = a + (T + 1) by omega, Nat.add_mod_right]
      rw [h2, List.countP_append, List.countP_cons, List.countP_nil]
      simp only [this, Nat.zero_add]
      exact ih

theorem countP_not_eq {α : Type} (p : α → Bool) (l : List α) :
    l.countP (fun x => !p x) = l.length - l.countP p := by
  induction l with
  | nil => rfl
  | cons x l ih =>
    have hle := List.countP_le_length p (l := l)
    rw [List.countP_cons, List.countP_cons, ih, List.length_cons]
    cases p x <;> simp
    omega

theorem selectText_ne_insertText (a b : Nat) (key : Bool) (c d e : Nat) :
    selectText a b key ≠ insertText c d e := by
  intro h
  have h1 := firstChar_selectText a b key
  rw [h, firstChar_insertText] at h1
  exact absurd h1 (by decide)

/-- A list whose `j`-th entry is `sel` when `j mod T < S` and `ins` otherwise
holds exactly `S` entries `sel` and `T - S` entries `ins` in any window of `T`
consecutive entries. -/
theorem countP_pattern_window {α : Type} [DecidableEq α] (G : List α) (sel ins : α)
    (hne : sel ≠ ins) (T S : Nat) (hS : S ≤ T)
    (hG : ∀ j x, G[j]? = some x → x = if j % T < S then sel else ins)
    (a : Nat) (ha : a + T ≤ G.length) :
    ((G.drop a).take T).countP (fun x => decide (x = sel)) = S ∧
      ((G.drop a).take T).countP (fun x => decide (x = ins)) = T - S := by
  have hW : (G.drop a).take T = (List.range' a T).map fun j => if j % T < S then sel else ins := by
    apply List.ext_getElem?
    intro i
    by_cases hi : i < T
    · have hlt : a + i < G.length := by omega
      rw [List.getElem?_take_of_lt hi, List.getElem?_drop, List.getElem?_map,
        List.getElem?_range' _ _ hi, Nat.one_mul, Option.map_some']
      have := hG (a + i) (G[a + i]) (List.getElem?_eq_getElem hlt)
      rw [List.getElem?_eq_getElem hlt, this]
    · rw [List.getElem?_eq_none (by simp; omega), List.getElem?_eq_none (by simp; omega)]
  have hsel : (List.range' a T).countP
      ((fun x => decide (x = sel)) ∘ fun j => if j % T < S then sel else ins) = S := by
    refine Eq.trans (List.countP_congr ?_) (countP_window T S hS a)
    intro j _
    by_cases h : j % T < S <;> simp [h, Ne.symm hne]
  have hins : (List.range' a T).countP
      ((fun x => decide (x = ins)) ∘ fun j => if j % T < S then sel else ins) = T - S := by
    have h1 := countP_not_eq (fun j => decide (j % T < S)) (List.range' a T)
    rw [countP_window T S hS a, List.length_range'] at h1
    refine Eq.trans (List.countP_congr ?_) h1
    intro j _
    by_cases h : j % T < S <;> simp [h, hne]
  rw [hW, List.countP_map, List.countP_map]
  exact ⟨hsel, hins⟩

theorem addInt64_of_fits (S I : Nat) (h : S + I < 2 ^ 63) :
    addInt64 (S : Int) (I : Int) = ((S + I : Nat) : Int) := by
  unfold addInt64
  have h1 : (2 : Int) ^ 63 = 9223372036854775808 := by norm_num
  have h2 : (2 : Int) ^ 64 = 18446744073709551616 := by norm_num
  have h3 : (2 : Nat) ^ 63 = 9223372036854775808 := by norm_num
  rw [h1, h2]
  rw [h3] at h
  omega

/-- One generation in mixed mode at cycle position `j mod (S + I)`. -/
theorem nextGen_mixed_step {R : Type} (ops : RandOps R) (opts : DataOpts) (L : List String)
    (S I : Nat) (hq : opts.Queries = []) (hl : opts.LoadType = LoadTypeMixed)
    (hS : opts.MixedSelRatio = S) (hI : opts.MixedInsRatio = I) (hpos : 0 < S + I)
    (hfit : S + I < 2 ^ 63) (hL : 0 < S → L ≠ []) (j : Nat) (d : Data R)
    (h : d.opts = opts ∧ d.idList = L ∧ d.mixedIdx = j % (S + I)) :
    ∃ out d', nextGen ops d = some (out, d') ∧
      out.1 = (if j % (S + I) < S then
          selectText opts.NumberIntCols.toNat opts.NumberCharCols.toNat true
        else insertText opts.NumberSecondaryIndexes.toNat opts.NumberIntCols.toNat
          opts.NumberCharCols.toNat) ∧
      (d'.opts = opts ∧ d'.idList = L ∧ d'.mixedIdx = (j + 1) % (S + I)) := by
  obtain ⟨ho, hi, hm⟩ := h
  have hlt : j % (S + I) < S + I := Nat.mod_lt _ hpos
  have hwrap : (if ((d.mixedIdx + 1 : Nat) : Int) ≥
        addInt64 d.opts.MixedSelRatio d.opts.MixedInsRatio
      then 0 else d.mixedIdx + 1) = (j + 1) % (S + I) := by
    rw [succ_mod_eq j _ hpos, ho, hS, hI, hm, addInt64_of_fits S I hfit]
    by_cases hw : j % (S + I) + 1 = S + I
    · rw [if_pos hw, if_pos (by omega)]
    · rw [if_neg hw, if_neg (by omega)]
  rw [nextGen_mixed ops d (by rw [ho]; exact hq) (by rw [ho]; exact hl)]
  by_cases hsel : j % (S + I) < S
  · have hc : (d.mixedIdx : Int) < d.opts.MixedSelRatio := by
      rw [ho, hS, hm]; exact_mod_cast hsel
    have hne : d.idList ≠ [] := by rw [hi]; exact hL (by omega)
    rw [if_pos hc, if_pos hsel, buildSelectStmt_eq, if_pos rfl, nextId_eq d hne]
    refine ⟨_, _, rfl, by rw [ho], ho, hi, hwrap⟩
  · have hc : ¬ (d.mixedIdx : Int) < d.opts.MixedSelRatio := by
      rw [ho, hS, hm]; exact_mod_cast hsel
    rw [if_neg hc, if_neg hsel, buildInsertStmt_eq]
    refine ⟨_, _, rfl, by rw [ho], ho, hi, hwrap⟩

/-- Claim C2, amended. Load type `mixed`, no fixed statement list, select
weight `S` and insert weight `I` with `1 ≤ S + I ≤ 2^63 - 1`, so that the sum
fits a Go `int` (and an id list to select from when `S > 0`), from a fresh
generator: every call returns; the `j`-th non-control
call returns the key SELECT when `j mod (S+I) < S` and the INSERT otherwise;
so any window of `S + I` consecutive non-control calls holds exactly `S` key
SELECTs and exactly `I` INSERTs; and after every call `mixedIdx` is in
`0..S+I-1`. -/
theorem mixed_pattern {R : Type} (ops : RandOps R) (opts : DataOpts) (L : List String)
    (seed : R) (S I : Nat) (hq : opts.Queries = []) (hl : opts.LoadType = LoadTypeMixed)
    (hS : opts.MixedSelRatio = S) (hI : opts.MixedInsRatio = I) (hpos : 0 < S + I)
    (hfit : S + I < 2 ^ 63) (hL : 0 < S → L ≠ []) (k : Nat) :
    (trace ops k (newData opts L seed)).length = k ∧
    (opts.CommitRate ≤ 0 → (genOutputs ops k (newData opts L seed)).length = k) ∧
    (∀ j out, (genOutputs ops k (newData opts L seed))[j]? = some out →
      out.1 = if j % (S + I) < S then
          selectText opts.NumberIntCols.toNat opts.NumberCharCols.toNat true
        else insertText opts.NumberSecondaryIndexes.toNat opts.NumberIntCols.toNat
          opts.NumberCharCols.toNat) ∧
    (∀ a, a + (S + I) ≤ (genOutputs ops k (newData opts L seed)).length →
      ((((genOutputs ops k (newData opts L seed)).map Prod.fst).drop a).take (S + I)).countP
          (fun t => decide (t =
            selectText opts.NumberIntCols.toNat opts.NumberCharCols.toNat true)) = S ∧
      ((((genOutputs ops k (newData opts L seed)).map Prod.fst).drop a).take (S + I)).countP
          (fun t => decide (t = insertText opts.NumberSecondaryIndexes.toNat
            opts.NumberIntCols.toNat opts.NumberCharCols.toNat)) = I) ∧
    ∃ d', afterCalls ops k (newData opts L seed) = some d' ∧ d'.mixedIdx < S + I := by
  have key := genOutputs_invariant ops opts
    (fun j d => d.opts = opts ∧ d.idList = L ∧ d.mixedIdx = j % (S + I))
    (fun j out => out.1 = if j % (S + I) < S then
          selectText opts.NumberIntCols.toNat opts.NumberCharCols.toNat true
        else insertText opts.NumberSecondaryIndexes.toNat opts.NumberIntCols.toNat
          opts.NumberCharCols.toNat)
    (fun _ _ h => h.1)
    (fun _ _ _ _ h => h)
    (nextGen_mixed_step ops opts L S I hq hl hS hI hpos hfit hL)
    k (newData opts L seed) 0 ⟨rfl, rfl, by simp [newData]⟩
  obtain ⟨h1, h2, h3, d', h4, _, _, h5⟩ := key
  have hpat : ∀ j out, (genOutputs ops k (newData opts L seed))[j]? = some out →
      out.1 = if j % (S + I) < S then
          selectText opts.NumberIntCols.toNat opts.NumberCharCols.toNat true
        else insertText opts.NumberSecondaryIndexes.toNat opts.NumberIntCols.toNat
          opts.NumberCharCols.toNat := by
    intro j out hj
    have := h2 j out hj
    rwa [Nat.zero_add] at this
  refine ⟨h1, h3, hpat, ?_, d', h4, by rw [h5]; exact Nat.mod_lt _ hpos⟩
  intro a ha
  have hw := countP_pattern_window ((genOutputs ops k (newData opts L seed)).map Prod.fst)
    (selectText opts.NumberIntCols.toNat opts.NumberCharCols.toNat true)
    (insertText opts.NumberSecondaryIndexes.toNat opts.NumberIntCols.toNat
      opts.NumberCharCols.toNat)
    (selectText_ne_insertText _ _ _ _ _ _) (S + I) S (by omega)
    (by
      intro j x hx
      rw [List.getElem?_map] at hx
      cases hg : (genOutputs ops k (newData opts L seed))[j]? with
      | none => simp [hg] at hx
      | some out =>
        rw [hg, Option.map_some', Option.some.injEq] at hx
        rw [← hx]; exact hpat j out hg)
    a (by rw [List.length_map]; exact ha)
  rw [Nat.add_sub_cancel_left] at hw
  exact hw

/-- The theorem `mixed_pattern` at weights 2 and 1 on the id list `a, b`: nine
calls return and the first three non-control calls are select, select,
insert. -/
theorem mixed_pattern_witness :
    (0 < 2 + 1) ∧ (2 + 1 < 2 ^ 63) ∧
      (trace counterOps 9 (newData
        { sampleOpts "mixed" with MixedSelRatio := 2, MixedInsRatio := 1 } ["a", "b"] 0)).length
        = 9 ∧
      ((genOutputs counterOps 3 (newData
        { sampleOpts "mixed" with MixedSelRatio := 2, MixedInsRatio := 1 } ["a", "b"] 0)).map
          Prod.fst) =
        ["SELECT intcol1 FROM t1 WHERE id = $1", "SELECT intcol1 FROM t1 WHERE id = $1",
          "INSERT INTO t1 VALUES (DEFAULT,$1)"] :=
  ⟨by decide, by norm_num,
    (mixed_pattern counterOps { sampleOpts "mixed" with MixedSelRatio := 2, MixedInsRatio := 1 }
      ["a", "b"] 0 2 1 rfl rfl rfl rfl (by decide) (by norm_num) (fun _ => by decide) 9).1,
    by decide⟩

/-- Claim C2, as stated, fails on weights whose sum is not in range. At `S = 1`
and `I = 2^63 - 1` the sum wraps to `-2^63`, `mixedIdx` is reset after every
call and every call is the key SELECT, where the pattern makes call 1 an
INSERT. At `S = I = 0` the position stays 0, which is not in `0..S+I-1`. -/
theorem mixed_pattern_fails_out_of_range :
    ((genOutputs counterOps 3 (newData
        { sampleOpts "mixed" with MixedSelRatio := 1, MixedInsRatio := 9223372036854775807 }
        ["a"] 0)).map Prod.fst) =
        ["SELECT intcol1 FROM t1 WHERE id = $1", "SELECT intcol1 FROM t1 WHERE id = $1",
          "SELECT intcol1 FROM t1 WHERE id = $1"] ∧
      ¬ (1 % (1 + 9223372036854775807) < 1) ∧
      (afterCalls counterOps 1 (newData (sampleOpts "mixed") [] 0)).map (fun d => d.mixedIdx) =
        some 0 ∧
      ¬ (0 < 0 + 0) := by
  refine ⟨?_, by norm_num, ?_, by decide⟩
  · decide
  · decide

/-! ## Placeholders -/

theorem digitChar_spec : ∀ m, m < 10 →
    (Nat.digitChar m).isDigit = true ∧ (Nat.digitChar m).toNat - '0'.toNat = m ∧
      Nat.digitChar m ≠ '$' := by
  decide

theorem toDigitsCore_append (fuel : Nat) : ∀ (n : Nat) (ds : List Char),
    Nat.toDigitsCore 10 fuel n ds = Nat.toDigitsCore 10 fuel n [] ++ ds := by
  induction fuel with
  | zero => intro n ds; simp [Nat.toDigitsCore]
  | succ fuel ih =>
    intro n ds
    simp only [Nat.toDigitsCore]
    split
    · simp
    · rw [ih, ih (n / 10) [Nat.digitChar (n % 10)]]
      simp

theorem parseNat_append_singleton (ds : List Char) (c : Char) :
    parseNat (ds ++ [c]) = 10 * parseNat ds + (c.toNat - '0'.toNat) := by
  simp [parseNat, List.foldl_append]

/-- The decimal digits of `n`: a non-empty run of digits that denotes `n`. -/
theorem toDigitsCore_spec (fuel : Nat) : ∀ n, n < fuel →
    Nat.toDigitsCore 10 fuel n [] ≠ [] ∧
      (∀ c ∈ Nat.toDigitsCore 10 fuel n [], c.isDigit = true ∧ c ≠ '$') ∧
      parseNat (Nat.toDigitsCore 10 fuel n []) = n := by
  induction fuel with
  | zero => intro n h; omega
  | succ fuel ih =>
    intro n hn
    have hd := digitChar_spec (n % 10) (Nat.mod_lt _ (by decide))
    simp only [Nat.toDigitsCore]
    split
    · next h0 =>
      have hlt : n < 10 := by omega
      refine ⟨by simp, ?_, ?_⟩
      · intro c hc
        rw [List.mem_singleton] at hc
        subst hc; exact ⟨hd.1, hd.2.2⟩
      · have := parseNat_append_singleton [] (Nat.digitChar (n % 10))
        simp only [List.nil_append] at this
        rw [this, hd.2.1]
        simp [parseNat]; omega
    · next h0 =>
      have hlt : n / 10 < fuel := by omega
      obtain ⟨h1, h2, h3⟩ := ih (n / 10) hlt
      rw [toDigitsCore_append]
      refine ⟨by simp, ?_, ?_⟩
      · intro c hc
        rw [List.mem_append, List.mem_singleton] at hc
        rcases hc with hc | hc
        · exact h2 c hc
        · subst hc; exact ⟨hd.1, hd.2.2⟩
      · rw [parseNat_append_singleton, h3, hd.2.1]; omega

theorem toString_data (n : Nat) : (toString n).data = Nat.toDigits 10 n := rfl

theorem toString_spec (n : Nat) :
    (toString n).data ≠ [] ∧ (∀ c ∈ (toString n).data, c.isDigit = true ∧ c ≠ '$') ∧
      parseNat (toString n).data = n := by
  rw [toString_data]
  exact toDigitsCore_spec (n + 1) n (Nat.lt_succ_self n)

theorem scan_append_noDollar (a b : List Char) (h : '$' ∉ a) :
    scanPlaceholders (a ++ b) = scanPlaceholders b := by
  induction a with
  | nil => rfl
  | cons c cs ih =>
    rw [List.mem_cons, not_or] at h
    have hc : c ≠ '$' := fun e => h.1 e.symm
    simp only [List.cons_append, scanPlaceholders, hc, false_and, if_false]
    exact ih h.2

theorem takeWhile_digits_append (ds rest : List Char) (hds : ∀ c ∈ ds, c.isDigit = true)
    (hrest : ∀ c, rest.head? = some c → c.isDigit = false) :
    (ds ++ rest).takeWhile Char.isDigit = ds := by
  induction ds with
  | nil =>
    cases rest with
    | nil => rfl
    | cons c cs => simp [List.takeWhile, hrest c rfl]
  | cons d ds ih =>
    have hd : d.isDigit = true := hds d (List.mem_cons_self _ _)
    have := ih fun c hc => hds c (List.mem_cons_of_mem _ hc)
    simp only [List.cons_append, List.takeWhile_cons, hd, if_true, this]

theorem scan_placeholder (ds rest : List Char) (hne : ds ≠ [])
    (hds : ∀ c ∈ ds, c.isDigit = true ∧ c ≠ '$')
    (hrest : ∀ c, rest.head? = some c → c.isDigit = false) :
    scanPlaceholders ('$' :: (ds ++ rest)) = parseNat ds :: scanPlaceholders rest := by
  have htw := takeWhile_digits_append ds rest (fun c hc => (hds c hc).1) hrest
  have hnd : '$' ∉ ds := fun h => (hds _ h).2 rfl
  simp only [scanPlaceholders, htw, hne, ne_eq, not_false_eq_true, and_self, if_true]
  rw [scan_append_noDollar ds rest hnd]

theorem placeholders_append_noDollar (a b : String) (h : NoDollar a) :
    placeholders (a ++ b) = placeholders b := by
  simp only [placeholders, String.data_append]
  exact scan_append_noDollar _ _ h

theorem placeholders_noDollar (a : String) (h : NoDollar a) : placeholders a = [] := by
  have := placeholders_append_noDollar a "" h
  simpa using this

/-- A placeholder `$n` followed by a text that does not go on with a digit. -/
theorem placeholders_dollar (n : Nat) (tail : String) (ht : NonDigitHead tail) :
    placeholders ("$" ++ (toString n ++ tail)) = n :: placeholders tail := by
  obtain ⟨h1, h2, h3⟩ := toString_spec n
  simp only [placeholders, String.data_append]
  rw [List.singleton_append, scan_placeholder _ _ h1 h2 ht, h3]

theorem NonDigitHead_append (a b : String) (ha : NonDigitHead a) (hne : a ≠ "") :
    NonDigitHead (a ++ b) := by
  intro c hc
  apply ha c
  rw [String.data_append] at hc
  cases hd : a.data with
  | nil =>
    exfalso; apply hne
    cases a; simp_all
  | cons x xs => simpa [hd] using hc

theorem NonDigitHead_dollar (b : String) : NonDigitHead ("$" ++ b) := by
  intro c hc
  rw [String.data_append, show "$".data = ['$'] from rfl] at hc
  simp only [List.singleton_append, List.head?_cons, Option.some.injEq] at hc
  subst hc; decide

theorem NonDigitHead_piece_append (it : String × Nat) (b : String) (h : NonDigitHead it.1) :
    NonDigitHead (piece it ++ b) := by
  unfold piece
  by_cases he : it.1 = ""
  · rw [he, String.append_assoc, String.empty_append, String.append_assoc]
    exact NonDigitHead_dollar _
  · rw [String.append_assoc]
    exact NonDigitHead_append _ _ h he

/-- The placeholders of a run of pieces `pre₁$n₁ pre₂$n₂ ...` are
`n₁, n₂, ...`. -/
theorem placeholders_pieces (items : List (String × Nat)) (tail : String)
    (hitems : ∀ it ∈ items, NoDollar it.1 ∧ NonDigitHead it.1) (ht : NonDigitHead tail) :
    placeholders (String.join (items.map piece) ++ tail) =
      items.map Prod.snd ++ placeholders tail ∧
    NonDigitHead (String.join (items.map piece) ++ tail) := by
  induction items with
  | nil => simpa [String.join] using ht
  | cons it rest ih =>
    obtain ⟨h1, h2⟩ := ih fun x hx => hitems x (List.mem_cons_of_mem _ hx)
    obtain ⟨hd, hh⟩ := hitems it (List.mem_cons_self _ _)
    rw [List.map_cons, ← List.singleton_append, join_append, join_singleton, String.append_assoc]
    refine ⟨?_, NonDigitHead_piece_append it _ hh⟩
    rw [piece, String.append_assoc, placeholders_append_noDollar _ _ hd, String.append_assoc,
      placeholders_dollar _ _ h2, h1]
    simp

theorem NoDollar_append (a b : String) (ha : NoDollar a) (hb : NoDollar b) :
    NoDollar (a ++ b) := by
  simp only [NoDollar, String.data_append, List.mem_append, not_or] at *
  exact ⟨ha, hb⟩

theorem NoDollar_toString (n : Nat) : NoDollar (toString n) :=
  fun h => ((toString_spec n).2.1 _ h).2 rfl

theorem NoDollar_join (l : List String) (h : ∀ s ∈ l, NoDollar s) : NoDollar (String.join l) := by
  induction l with
  | nil => simp [String.join, NoDollar]
  | cons a l ih =>
    rw [← List.singleton_append, join_append, join_singleton]
    exact NoDollar_append _ _ (h a (List.mem_cons_self _ _))
      (ih fun s hs => h s (List.mem_cons_of_mem _ hs))

theorem NoDollar_intercalate (l : List String) (h : ∀ s ∈ l, NoDollar s) :
    NoDollar (String.intercalate "," l) := by
  cases l with
  | nil => simp [String.intercalate, NoDollar]
  | cons a l =>
    rw [intercalate_cons]
    refine NoDollar_append _ _ (h a (List.mem_cons_self _ _)) (NoDollar_join _ ?_)
    intro s hs
    rw [List.mem_map] at hs
    obtain ⟨b, hb, rfl⟩ := hs
    exact NoDollar_append _ _ (by decide) (h b (List.mem_cons_of_mem _ hb))

theorem NoDollar_colNames (nInt nChar : Nat) :
    ∀ s ∈ intColNames nInt ++ charColNames nChar, NoDollar s := by
  intro s hs
  simp only [intColNames, charColNames, List.mem_append, List.mem_map] at hs
  rcases hs with ⟨i, _, rfl⟩ | ⟨i, _, rfl⟩
  · exact NoDollar_append _ _ (by decide) (NoDollar_toString i)
  · exact NoDollar_append _ _ (by decide) (NoDollar_toString i)

theorem NonDigitHead_of_firstChar (s : String) (c : Char) (h : firstChar s = some c)
    (hc : c.isDigit = false) : NonDigitHead s := by
  intro x hx
  rw [firstChar] at h
  rw [h, Option.some.injEq] at hx
  subst hx; exact hc

theorem NonDigitHead_empty : NonDigitHead "" := by
  intro c hc; simp at hc

/-- The SELECT holds the placeholder `$1` when it has the key predicate and no
placeholder otherwise. -/
theorem placeholders_selectText (nInt nChar : Nat) (key : Bool) :
    placeholders (selectText nInt nChar key) = if key then [1] else [] := by
  have hpre : NoDollar ("SELECT " ++ String.intercalate "," (intColNames nInt ++
      charColNames nChar) ++ " FROM t1") :=
    NoDollar_append _ _ (NoDollar_append _ _ (by decide)
      (NoDollar_intercalate _ (NoDollar_colNames nInt nChar))) (by decide)
  unfold selectText
  cases key with
  | false =>
    simp only [Bool.false_eq_true, if_false, String.append_empty]
    exact placeholders_noDollar _ hpre
  | true =>
    simp only [if_true]
    rw [placeholders_append_noDollar _ _ hpre]
    decide

theorem placeholderList_eq_pieces (p n : Nat) :
    placeholderList p n = String.join (((List.range' p n).map fun k => (",", k)).map piece) := by
  simp only [placeholderList, List.map_map]
  congr 1

/-- The INSERT holds the placeholders `$1, ..., $(nInt+nChar)`. -/
theorem placeholders_insertText (nSec nInt nChar : Nat) :
    placeholders (insertText nSec nInt nChar) = List.range' 1 (nInt + nChar) := by
  have hpre : NoDollar ("INSERT INTO t1 VALUES (DEFAULT" ++
      String.join (List.replicate nSec ",gen_random_uuid()")) := by
    refine NoDollar_append _ _ (by decide) (NoDollar_join _ ?_)
    intro s hs
    rw [List.eq_of_mem_replicate hs]; decide
  have hp := (placeholders_pieces ((List.range' 1 (nInt + nChar)).map fun k => (",", k)) ")"
    (by
      intro it hit
      rw [List.mem_map] at hit
      obtain ⟨k, _, rfl⟩ := hit
      exact ⟨show NoDollar "," by decide, show NonDigitHead "," by decide⟩)
    (by decide)).1
  unfold insertText
  rw [String.append_assoc, placeholders_append_noDollar _ _ hpre, placeholderList_eq_pieces, hp]
  rw [placeholders_noDollar ")" (by decide)]
  simp [List.map_map, Function.comp_def]

theorem updateAssignments_eq_pieces (nInt nChar : Nat) :
    updateAssignments nInt nChar = (updateItems nInt nChar).map piece := by
  have h : ∀ a b : String, a ++ " = $" ++ b = a ++ " = " ++ ("$" ++ b) := by
    intro a b
    rw [String.append_assoc, String.append_assoc]
    rfl
  simp only [updateAssignments, updateItems, List.map_append, List.map_map, Function.comp_def,
    piece, h]

theorem intercalate_pieces (items : List (String × Nat)) :
    String.intercalate "," (items.map piece) = String.join ((commaSeparated items).map piece) := by
  cases items with
  | nil => rfl
  | cons it rest =>
    rw [List.map_cons, intercalate_cons, commaSeparated, List.map_cons,
      ← List.singleton_append, join_append, join_singleton]
    simp only [List.map_map, Function.comp_def, piece, String.append_assoc]

theorem map_snd_commaSeparated (items : List (String × Nat)) :
    (commaSeparated items).map Prod.snd = items.map Prod.snd := by
  cases items with
  | nil => rfl
  | cons it rest => simp [commaSeparated, List.map_map, Function.comp_def]

theorem map_snd_updateItems (nInt nChar : Nat) :
    (updateItems nInt nChar).map Prod.snd = List.range' 1 (nInt + nChar) := by
  simp only [updateItems, List.map_append, List.map_map, Function.comp_def, List.map_id']
  rw [Nat.add_comm nInt nChar, ← List.range'_append_1, List.map_add_range']
  simp [Nat.add_comm]

theorem updateItems_ok (nInt nChar : Nat) :
    ∀ it ∈ updateItems nInt nChar, NoDollar it.1 ∧ firstChar it.1 ∈ [some 'i', some 'c'] := by
  intro it hit
  simp only [updateItems, List.mem_append, List.mem_map] at hit
  rcases hit with ⟨i, _, rfl⟩ | ⟨i, _, rfl⟩
  · refine ⟨NoDollar_append _ _ (NoDollar_append _ _ (by decide) (NoDollar_toString i))
      (by decide), ?_⟩
    rw [firstChar_append _ _ 'i' (firstChar_append "intcol" _ 'i' rfl)]; decide
  · refine ⟨NoDollar_append _ _ (NoDollar_append _ _ (by decide) (NoDollar_toString i))
      (by decide), ?_⟩
    rw [firstChar_append _ _ 'c' (firstChar_append "charcol" _ 'c' rfl)]; decide

theorem commaSeparated_ok (items : List (String × Nat))
    (h : ∀ it ∈ items, NoDollar it.1 ∧ firstChar it.1 ∈ [some 'i', some 'c']) :
    ∀ it ∈ commaSeparated items, NoDollar it.1 ∧ NonDigitHead it.1 := by
  have hnd : ∀ s : String, firstChar s ∈ [some 'i', some 'c'] → NonDigitHead s := by
    intro s hs
    simp only [List.mem_cons, List.mem_singleton, List.mem_nil_iff, or_false] at hs
    rcases hs with hs | hs
    · exact NonDigitHead_of_firstChar s _ hs (by decide)
    · exact NonDigitHead_of_firstChar s _ hs (by decide)
  cases items with
  | nil => intro it hit; simp [commaSeparated] at hit
  | cons a rest =>
    intro it hit
    simp only [commaSeparated, List.mem_cons, List.mem_map] at hit
    rcases hit with rfl | ⟨x, hx, rfl⟩
    · exact ⟨(h _ (List.mem_cons_self _ _)).1, hnd _ (h _ (List.mem_cons_self _ _)).2⟩
    · exact ⟨NoDollar_append _ _ (by decide) (h x (List.mem_cons_of_mem _ hx)).1,
        NonDigitHead_of_firstChar _ ',' (firstChar_append _ _ _ rfl) (by decide)⟩

/-- The UPDATE holds the placeholders `$1, ..., $(nInt+nChar+1)`. -/
theorem placeholders_updateText (nInt nChar : Nat) :
    placeholders (updateText nInt nChar) = List.range' 1 (nInt + nChar + 1) := by
  have hp := (placeholders_pieces
    (commaSeparated (updateItems nInt nChar) ++ [(" WHERE id = ", nInt + nChar + 1)]) ""
    (by
      intro it hit
      rw [List.mem_append, List.mem_singleton] at hit
      rcases hit with hit | rfl
      · exact commaSeparated_ok _ (updateItems_ok nInt nChar) it hit
      · exact ⟨show NoDollar " WHERE id = " by decide,
          show NonDigitHead " WHERE id = " by decide⟩)
    NonDigitHead_empty).1
  have htxt : updateText nInt nChar = "UPDATE t1 SET " ++
      (String.join ((commaSeparated (updateItems nInt nChar) ++
        [(" WHERE id = ", nInt + nChar + 1)]).map piece) ++ "") := by
    rw [updateText, updateAssignments_eq_pieces, intercalate_pieces, List.map_append,
      join_append, List.map_cons, List.map_nil, join_singleton, piece]
    simp only [String.append_assoc, String.append_empty]
    rfl
  rw [htxt, placeholders_append_noDollar _ _ (by decide), hp, List.map_append,
    map_snd_commaSeparated, map_snd_updateItems, placeholders_noDollar "" (by decide)]
  simp [List.range'_concat, Nat.add_comm]

/-! ## The INSERT -/

theorem drawArgs_length {R : Type} (draw : R → Arg × R) (n : Nat) (rs : R) :
    (drawArgs draw n rs).1.length = n := by
  induction n with
  | zero => rfl
  | succ n ih => simp [drawArgs, ih]

theorem drawArgs_all {R : Type} (draw : R → Arg × R) (p : Arg → Prop)
    (hp : ∀ rs, p (draw rs).1) (n : Nat) (rs : R) : ∀ a ∈ (drawArgs draw n rs).1, p a := by
  induction n with
  | zero => intro a ha; simp [drawArgs] at ha
  | succ n ih =>
    intro a ha
    simp only [drawArgs, List.mem_append, List.mem_singleton] at ha
    rcases ha with ha | rfl
    · exact ih a ha
    · exact hp _

theorem insertArgs_length {R : Type} (ops : RandOps R) (nInt nChar : Nat) (rs : R) :
    (insertArgs ops nInt nChar rs).1.length = nInt + nChar := by
  simp [insertArgs, drawArgs_length]

theorem insertArgs_take {R : Type} (ops : RandOps R) (nInt nChar : Nat) (rs : R) :
    ∀ a ∈ (insertArgs ops nInt nChar rs).1.take nInt, a.isInt = true := by
  have h : (insertArgs ops nInt nChar rs).1.take nInt = (drawArgs (drawInt ops) nInt rs).1 := by
    simp only [insertArgs]
    rw [List.take_append_of_le_length (by rw [drawArgs_length]),
      List.take_of_length_le (by rw [drawArgs_length])]
  rw [h]
  exact drawArgs_all (drawInt ops) (fun a => a.isInt = true) (fun _ => rfl) nInt rs

theorem insertArgs_drop {R : Type} (ops : RandOps R) (nInt nChar : Nat) (rs : R) :
    ∀ a ∈ (insertArgs ops nInt nChar rs).1.drop nInt, a.isStr = true := by
  have h : (insertArgs ops nInt nChar rs).1.drop nInt =
      (drawArgs (drawStr ops) nChar (drawArgs (drawInt ops) nInt rs).2).1 := by
    simp only [insertArgs]
    rw [List.drop_append_of_le_length (by rw [drawArgs_length]),
      List.drop_of_length_le (by rw [drawArgs_length]), List.nil_append]
  rw [h]
  exact drawArgs_all (drawStr ops) (fun a => a.isStr = true) (fun _ => rfl) nChar _

/-- Claim C4. With `K` secondary indexes, `I` integer and `C` character columns,
`buildInsertStmt` (what the load type `write` returns) gives the text
`INSERT INTO t1 VALUES (DEFAULT`, then `K` copies of `,gen_random_uuid()`,
then `,$1` to `,$(I+C)` in increasing order, then `)`, with exactly `I + C`
arguments, the first `I` integers and the last `C` strings; for `K = 0`,
`I = 2`, `C = 1` the text is `INSERT INTO t1 VALUES (DEFAULT,$1,$2,$3)`; and
the text is the same for every generator with these three counts, whatever
its random source and its other options (`GuidPrimary` among them). -/
theorem insert_statement {R : Type} (ops : RandOps R) (data : Data R) (K I C : Nat)
    (hK : data.opts.NumberSecondaryIndexes = K) (hI : data.opts.NumberIntCols = I)
    (hC : data.opts.NumberCharCols = C) :
    (buildInsertStmt ops data).1.1 =
      "INSERT INTO t1 VALUES (DEFAULT" ++ String.join (List.replicate K ",gen_random_uuid()") ++
        String.join ((List.range' 1 (I + C)).map fun k => ",$" ++ toString k) ++ ")" ∧
    (buildInsertStmt ops data).1.2.length = I + C ∧
    (∀ a ∈ (buildInsertStmt ops data).1.2.take I, a.isInt = true) ∧
    (∀ a ∈ (buildInsertStmt ops data).1.2.drop I, a.isStr = true) ∧
    (K = 0 → I = 2 → C = 1 →
      (buildInsertStmt ops data).1.1 = "INSERT INTO t1 VALUES (DEFAULT,$1,$2,$3)") ∧
    (data.opts.Queries = [] → data.opts.LoadType = LoadTypeWrite →
      nextGen ops data = some (buildInsertStmt ops data)) ∧
    (∀ (R' : Type) (ops' : RandOps R') (data' : Data R'),
      data'.opts.NumberSecondaryIndexes = K → data'.opts.NumberIntCols = I →
      data'.opts.NumberCharCols = C →
      (buildInsertStmt ops' data').1.1 = (buildInsertStmt ops data).1.1) := by
  have hform : ∀ (R' : Type) (ops' : RandOps R') (data' : Data R'),
      data'.opts.NumberSecondaryIndexes = K → data'.opts.NumberIntCols = I →
      data'.opts.NumberCharCols = C →
      buildInsertStmt ops' data' = ((insertText K I C, (insertArgs ops' I C data'.randSrc).1),
        { data' with randSrc := (insertArgs ops' I C data'.randSrc).2 }) := by
    intro R' ops' data' h1 h2 h3
    rw [buildInsertStmt_eq, h1, h2, h3]
    rfl
  rw [hform R ops data hK hI hC]
  refine ⟨rfl, insertArgs_length _ _ _ _, insertArgs_take _ _ _ _, insertArgs_drop _ _ _ _,
    ?_, ?_, ?_⟩
  · rintro rfl rfl rfl
    show insertText 0 2 1 = _
    decide
  · intro hq hl
    rw [nextGen_write ops data hq hl, hform R ops data hK hI hC]
  · intro R' ops' data' h1 h2 h3
    rw [hform R' ops' data' h1 h2 h3]

/-- The theorem `insert_statement` at two integer columns and one character
column: the text and the kinds of the three arguments. -/
theorem insert_statement_witness :
    (buildInsertStmt counterOps (newData
        { sampleOpts "write" with NumberIntCols := 2, NumberCharCols := 1 } [] 0)).1.1 =
      "INSERT INTO t1 VALUES (DEFAULT,$1,$2,$3)" ∧
    (buildInsertStmt counterOps (newData
        { sampleOpts "write" with NumberIntCols := 2, NumberCharCols := 1 } [] 0)).1.2.map
        Arg.isInt = [true, true, false] :=
  ⟨(insert_statement counterOps (newData
      { sampleOpts "write" with NumberIntCols := 2, NumberCharCols := 1 } [] 0) 0 2 1
      rfl rfl rfl).2.2.2.2.1 rfl rfl rfl, by decide⟩

/-! ## Placeholders and arguments of every load type -/

/-- Claim C5. Without a fixed statement list, on a valid load type (with an id
list to draw from when the load type consumes ids), a call to `next` returns a
statement whose placeholders are exactly `$1, ..., $n` in increasing order,
each once, for `n` the length of the returned argument list. When the call is
a non-control call: the load type `write` returns the INSERT with `n = I + C`;
`update` the UPDATE with `n = I + C + 1`, whose last placeholder is the
`WHERE id` predicate and whose last argument is the next id; `key` the SELECT
with `n = 1`, the next id; `read` the SELECT with `n = 0`; `mixed` one of the
key SELECT and the INSERT. The column lists of `selectText` and `updateText`
are `intcol1..intcolI` then `charcol1..charcolC` joined by single commas. -/
theorem placeholders_match_arguments {R : Type} (ops : RandOps R) (d : Data R) (I C : Nat)
    (hq : d.opts.Queries = []) (hrun : Runnable d.opts d.idList)
    (hI : d.opts.NumberIntCols = I) (hC : d.opts.NumberCharCols = C) :
    ∃ out d', next ops d = some (out, d') ∧
      placeholders out.1 = List.range' 1 out.2.length ∧
      (isControlCall d = false →
        (d.opts.LoadType = LoadTypeWrite →
          out.1 = insertText d.opts.NumberSecondaryIndexes.toNat I C ∧ out.2.length = I + C) ∧
        (d.opts.LoadType = LoadTypeUpdate →
          out.1 = updateText I C ∧ out.2.length = I + C + 1 ∧
          idArg out = (d.idList[effIdx d]?).map Arg.str) ∧
        (d.opts.LoadType = LoadTypeKey →
          out.1 = selectText I C true ∧ out.2.length = 1 ∧
          idArg out = (d.idList[effIdx d]?).map Arg.str) ∧
        (d.opts.LoadType = LoadTypeRead → out.1 = selectText I C false ∧ out.2 = []) ∧
        (d.opts.LoadType = LoadTypeMixed →
          (out.1 = selectText I C true ∧ out.2.length = 1) ∨
          (out.1 = insertText d.opts.NumberSecondaryIndexes.toNat I C ∧
            out.2.length = I + C))) ∧
      selectText I C false =
        "SELECT " ++ String.intercalate "," (intColNames I ++ charColNames C) ++ " FROM t1" ∧
      updateText I C =
        "UPDATE t1 SET " ++ String.intercalate "," (updateAssignments I C) ++
          " WHERE id = $" ++ toString (I + C + 1) := by
  have hIn : d.opts.NumberIntCols.toNat = I := by rw [hI]; rfl
  have hCn : d.opts.NumberCharCols.toNat = C := by rw [hC]; rfl
  have hWU : LoadTypeWrite ≠ LoadTypeUpdate := by decide
  have hWK : LoadTypeWrite ≠ LoadTypeKey := by decide
  have hWR : LoadTypeWrite ≠ LoadTypeRead := by decide
  have hWM : LoadTypeWrite ≠ LoadTypeMixed := by decide
  have hUK : LoadTypeUpdate ≠ LoadTypeKey := by decide
  have hUR : LoadTypeUpdate ≠ LoadTypeRead := by decide
  have hUM : LoadTypeUpdate ≠ LoadTypeMixed := by decide
  have hKR : LoadTypeKey ≠ LoadTypeRead := by decide
  have hKM : LoadTypeKey ≠ LoadTypeMixed := by decide
  have hRM : LoadTypeRead ≠ LoadTypeMixed := by decide
  have htexts : selectText I C false =
        "SELECT " ++ String.intercalate "," (intColNames I ++ charColNames C) ++ " FROM t1" ∧
      updateText I C =
        "UPDATE t1 SET " ++ String.intercalate "," (updateAssignments I C) ++
          " WHERE id = $" ++ toString (I + C + 1) :=
    ⟨by simp [selectText], rfl⟩
  cases hc : isControlCall d with
  | true =>
    rcases next_control ops d hc with ⟨h, _⟩ | ⟨h, _⟩
    · exact ⟨_, _, h, by decide, (fun h => by cases h), htexts⟩
    · exact ⟨_, _, h, by decide, (fun h => by cases h), htexts⟩
  | false =>
    rw [next_not_control ops d hc]
    generalize hd1 : ({ d with commitCnt :=
      if 0 < d.opts.CommitRate then d.commitCnt + 1 else d.commitCnt } : Data R) = d1
    have ho : d1.opts = d.opts := by rw [← hd1]
    have hl : d1.idList = d.idList := by rw [← hd1]
    have he : effIdx d1 = effIdx d := by rw [← hd1]; rfl
    have hq1 : d1.opts.Queries = [] := by rw [ho]; exact hq
    have hI1 : d1.opts.NumberIntCols.toNat = I := by rw [ho]; exact hIn
    have hC1 : d1.opts.NumberCharCols.toNat = C := by rw [ho]; exact hCn
    have hsel : ∀ hne : d1.idList ≠ [], buildSelectStmt d1 true =
        some ((selectText I C true, [Arg.str (d1.idList.get ⟨effIdx d1, effIdx_lt d1 hne⟩)]),
          { d1 with idIdx := effIdx d1 + 1 }) := by
      intro hne
      rw [buildSelectStmt_eq, if_pos rfl, nextId_eq d1 hne, hI1, hC1]; rfl
    have hins : buildInsertStmt ops d1 =
        ((insertText d.opts.NumberSecondaryIndexes.toNat I C, (insertArgs ops I C d1.randSrc).1),
          { d1 with randSrc := (insertArgs ops I C d1.randSrc).2 }) := by
      rw [buildInsertStmt_eq, hI1, hC1, ho]
    have hidx : ∀ hne : d1.idList ≠ [],
        (d.idList[effIdx d]?).map Arg.str =
          some (Arg.str (d1.idList.get ⟨effIdx d1, effIdx_lt d1 hne⟩)) := by
      intro hne
      have hlt := effIdx_lt d1 hne
      rw [← he, ← hl, List.getElem?_eq_getElem hlt]; rfl
    rcases hrun with hr | hr | hr | ⟨hr | hr | hr, hid⟩
    · exact absurd hq hr
    · rw [nextGen_write ops d1 hq1 (by rw [ho]; exact hr), hins]
      refine ⟨_, _, rfl, ?_, fun _ => ⟨fun _ => ⟨rfl, insertArgs_length _ _ _ _⟩,
        fun h => absurd (hr.symm.trans h) hWU, fun h => absurd (hr.symm.trans h) hWK,
        fun h => absurd (hr.symm.trans h) hWR, fun h => absurd (hr.symm.trans h) hWM⟩, htexts⟩
      show placeholders (insertText _ I C) = List.range' 1 (insertArgs ops I C d1.randSrc).1.length
      rw [placeholders_insertText, insertArgs_length]
    · rw [nextGen_read ops d1 hq1 (by rw [ho]; exact hr), buildSelectStmt_eq, hI1, hC1]
      refine ⟨_, _, rfl, ?_, fun _ => ⟨fun h => absurd (h.symm.trans hr) hWR,
        fun h => absurd (h.symm.trans hr) hUR, fun h => absurd (h.symm.trans hr) hKR,
        fun _ => ⟨rfl, rfl⟩, fun h => absurd (hr.symm.trans h) hRM⟩, htexts⟩
      show placeholders (selectText I C false) = _
      rw [placeholders_selectText]; rfl
    · have hne : d1.idList ≠ [] := by rw [hl]; exact hid
      rw [nextGen_key ops d1 hq1 (by rw [ho]; exact hr), hsel hne]
      refine ⟨_, _, rfl, ?_, fun _ => ⟨fun h => absurd (h.symm.trans hr) hWK,
        fun h => absurd (h.symm.trans hr) hUK,
        fun _ => ⟨rfl, rfl, ?_⟩, fun h => absurd (hr.symm.trans h) hKR,
        fun h => absurd (hr.symm.trans h) hKM⟩, htexts⟩
      · show placeholders (selectText I C true) = _
        rw [placeholders_selectText]; rfl
      · rw [hidx hne]; rfl
    · have hne : d1.idList ≠ [] := by rw [hl]; exact hid
      rw [nextGen_update ops d1 hq1 (by rw [ho]; exact hr), buildUpdateStmt_eq,
        nextId_eq ({ d1 with randSrc := (insertArgs ops d1.opts.NumberIntCols.toNat
          d1.opts.NumberCharCols.toNat d1.randSrc).2 } : Data R) hne, hI1, hC1]
      refine ⟨_, _, rfl, ?_, fun _ => ⟨fun h => absurd (h.symm.trans hr) hWU,
        fun _ => ⟨rfl, ?_, ?_⟩, fun h => absurd (hr.symm.trans h) hUK,
        fun h => absurd (hr.symm.trans h) hUR, fun h => absurd (hr.symm.trans h) hUM⟩, htexts⟩
      · show placeholders (updateText I C) =
          List.range' 1 ((insertArgs ops I C d1.randSrc).1 ++ [_]).length
        rw [placeholders_updateText, List.length_append, insertArgs_length]; rfl
      · show ((insertArgs ops I C d1.randSrc).1 ++ [_]).length = _
        rw [List.length_append, insertArgs_length]; rfl
      · rw [hidx hne]
        show ((insertArgs ops I C d1.randSrc).1 ++ [_]).getLast? = _
        rw [List.getLast?_append, List.getLast?_singleton]; rfl
    · rw [nextGen_mixed ops d1 hq1 (by rw [ho]; exact hr)]
      have hne : d1.idList ≠ [] := by rw [hl]; exact hid
      by_cases hm : (d1.mixedIdx : Int) < d1.opts.MixedSelRatio
      · rw [if_pos hm, hsel hne]
        refine ⟨_, _, rfl, ?_, fun _ => ⟨fun h => absurd (h.symm.trans hr) hWM,
          fun h => absurd (h.symm.trans hr) hUM, fun h => absurd (h.symm.trans hr) hKM,
          fun h => absurd (h.symm.trans hr) hRM, fun _ => Or.inl ⟨rfl, rfl⟩⟩, htexts⟩
        show placeholders (selectText I C true) = _
        rw [placeholders_selectText]; rfl
      · rw [if_neg hm, hins]
        refine ⟨_, _, rfl, ?_, fun _ => ⟨fun h => absurd (h.symm.trans hr) hWM,
          fun h => absurd (h.symm.trans hr) hUM, fun h => absurd (h.symm.trans hr) hKM,
          fun h => absurd (h.symm.trans hr) hRM,
          fun _ => Or.inr ⟨rfl, insertArgs_length _ _ _ _⟩⟩, htexts⟩
        show placeholders (insertText _ I C) =
          List.range' 1 (insertArgs ops I C d1.randSrc).1.length
        rw [placeholders_insertText, insertArgs_length]

/-- The theorem `placeholders_match_arguments` on the load type `update` with
two integer columns and one character column. -/
theorem placeholders_match_arguments_witness :
    Runnable ({ sampleOpts "update" with NumberIntCols := 2, NumberCharCols := 1 } : DataOpts)
        ["a"] ∧
      ∃ out d', next counterOps (newData
          { sampleOpts "update" with NumberIntCols := 2, NumberCharCols := 1 } ["a"] 0) =
          some (out, d') ∧
        placeholders out.1 = List.range' 1 out.2.length ∧ out.1 = updateText 2 1 ∧
        out.2.length = 2 + 1 + 1 := by
  have hrun : Runnable
      ({ sampleOpts "update" with NumberIntCols := 2, NumberCharCols := 1 } : DataOpts) ["a"] :=
    Or.inr (Or.inr (Or.inr ⟨Or.inr (Or.inl rfl), by decide⟩))
  obtain ⟨out, d', h1, h2, h3, _⟩ := placeholders_match_arguments counterOps (newData
    { sampleOpts "update" with NumberIntCols := 2, NumberCharCols := 1 } ["a"] 0) 2 1
    rfl hrun rfl rfl
  exact ⟨hrun, out, d', h1, h2, ((h3 rfl).2.1 rfl).1, ((h3 rfl).2.1 rfl).2.1⟩

/-! ## The schema -/

theorem appendLoop_eq (f : Nat → String) (sb0 : String) (n : Nat) :
    forLoop (n : Int) (fun i sb => sb ++ f i) sb0 =
      sb0 ++ String.join ((List.range' 1 n).map f) := by
  induction n with
  | zero => simp [forLoop_zero, String.join]
  | succ n ih =>
    rw [forLoop_succ, ih, List.range'_concat, List.map_append, join_append, List.map_cons,
      List.map_nil, join_singleton, String.append_assoc, Nat.one_mul, Nat.add_comm 1 n]

theorem indexLoop_eq (f g : Nat → String) (b : Bool) (sb0 : String) (l0 : List String)
    (n : Nat) :
    forLoop (n : Int)
        (fun i (st : String × List String) => (st.1 ++ f i, if b then st.2 ++ [g i] else st.2))
        (sb0, l0) =
      (sb0 ++ String.join ((List.range' 1 n).map f),
        l0 ++ if b then (List.range' 1 n).map g else []) := by
  induction n with
  | zero => cases b <;> simp [forLoop_zero, String.join]
  | succ n ih =>
    rw [forLoop_succ, ih, List.range'_concat, List.map_append, join_append, List.map_cons,
      List.map_nil, join_singleton, Nat.one_mul, Nat.add_comm 1 n]
    cases b <;> simp [String.append_assoc]

theorem intercalate_eq_join (a : String) (l : List String) :
    a ++ String.join (l.map fun b => "," ++ b) = String.intercalate "," (a :: l) :=
  (intercalate_cons "," a l).symm

/-- Closed form of `buildCreateTableStmt`. -/
theorem buildCreateTableStmt_eq {R : Type} (data : Data R) :
    buildCreateTableStmt data =
      ("CREATE TABLE t1 (" ++ String.intercalate "," (columnDefs data.opts.GuidPrimary
          data.opts.NumberSecondaryIndexes.toNat data.opts.NumberIntCols.toNat
          data.opts.NumberCharCols.toNat) ++ ")",
        indexStmts data.opts.IntColsIndex data.opts.CharColsIndex data.opts.NumberIntCols.toNat
          data.opts.NumberCharCols.toNat) := by
  have h0 := fun sb0 => appendLoop_eq (fun i => ",id" ++ toString i ++ " uuid UNIQUE") sb0
    data.opts.NumberSecondaryIndexes.toNat
  have h1 := fun sb0 l0 => indexLoop_eq (fun i => ",intcol" ++ toString i ++ " int")
    (fun i => "CREATE INDEX ON " ++ AutoGenerateTableName ++ "(intcol" ++ toString i ++ ")")
    data.opts.IntColsIndex sb0 l0 data.opts.NumberIntCols.toNat
  have h2 := fun sb0 l0 => indexLoop_eq (fun i => ",charcol" ++ toString i ++ " varchar(128)")
    (fun i => "CREATE INDEX ON " ++ AutoGenerateTableName ++ "(charcol" ++ toString i ++ ")")
    data.opts.CharColsIndex sb0 l0 data.opts.NumberCharCols.toNat
  simp only [← forLoop_toNat] at h0 h1 h2
  have hc : ∀ (p x s : String), "," ++ p ++ x ++ s = "," ++ (p ++ x ++ s) := by
    intro p x s; simp only [String.append_assoc]
  have e1 : ∀ x s : String, ",id" ++ x ++ s = "," ++ ("id" ++ x ++ s) := fun x s => hc "id" x s
  have e2 : ∀ x s : String, ",intcol" ++ x ++ s = "," ++ ("intcol" ++ x ++ s) :=
    fun x s => hc "intcol" x s
  have e3 : ∀ x s : String, ",charcol" ++ x ++ s = "," ++ ("charcol" ++ x ++ s) :=
    fun x s => hc "charcol" x s
  simp only [buildCreateTableStmt, h0, h1, h2]
  have hpre : ∀ s : String, "CREATE TABLE " ++ (AutoGenerateTableName ++ (" (id " ++ s)) =
      "CREATE TABLE t1 (" ++ ("id " ++ s) := by
    intro s
    simp only [← String.append_assoc]; rfl
  refine Prod.ext ?_ ?_
  · simp only [columnDefs, ← intercalate_eq_join, List.map_append, join_append, List.map_map,
      Function.comp_def, e1, e2, e3]
    cases data.opts.GuidPrimary <;>
      simp only [Bool.false_eq_true, if_false, if_true, String.append_assoc] <;>
      exact hpre _
  · simp only [indexStmts, List.nil_append, AutoGenerateTableName]
    rfl

theorem insertText_eq_values (nSec nInt nChar : Nat) :
    insertText nSec nInt nChar =
      "INSERT INTO t1 VALUES (" ++ String.intercalate "," (insertValues nSec nInt nChar) ++
        ")" := by
  have h1 : ∀ s : String, "INSERT INTO t1 VALUES (DEFAULT" ++ s =
      "INSERT INTO t1 VALUES (" ++ ("DEFAULT" ++ s) := by
    intro s; rw [← String.append_assoc]; rfl
  have h2 : ∀ s : String, "," ++ ("$" ++ s) = ",$" ++ s := by
    intro s; rw [← String.append_assoc]; rfl
  simp only [insertText, insertValues, intercalate_cons, List.map_append, join_append,
    List.map_replicate, List.map_map, Function.comp_def, placeholderList, String.append_assoc,
    h1, h2]
  rfl

/-- Claim C10. With `K` secondary indexes, `I` integer and `C` character columns,
`buildCreateTableStmt` returns one `CREATE TABLE t1 (...)` statement whose
column definitions, joined by commas, are the `1 + K + I + C` definitions
`id` (`uuid PRIMARY KEY DEFAULT gen_random_uuid()` under `GuidPrimary`, else
`serial PRIMARY KEY`), `id1..idK uuid UNIQUE`, `intcol1..intcolI int`,
`charcol1..charcolC varchar(128)`, and the list of
`(I if IntColsIndex) + (C if CharColsIndex)` `CREATE INDEX` statements, one per
flagged column. The result is a function of the options alone (the method
reads no other field and writes none), and the INSERT has as many values as
the table has columns. -/
theorem create_table_statement {R : Type} (data : Data R) (K I C : Nat)
    (hK : data.opts.NumberSecondaryIndexes = K) (hI : data.opts.NumberIntCols = I)
    (hC : data.opts.NumberCharCols = C) :
    buildCreateTableStmt data =
      ("CREATE TABLE t1 (" ++
          String.intercalate "," (columnDefs data.opts.GuidPrimary K I C) ++ ")",
        indexStmts data.opts.IntColsIndex data.opts.CharColsIndex I C) ∧
    (columnDefs data.opts.GuidPrimary K I C).length = 1 + K + I + C ∧
    (buildCreateTableStmt data).2.length =
      (if data.opts.IntColsIndex then I else 0) + (if data.opts.CharColsIndex then C else 0) ∧
    (∀ (R' : Type) (data' : Data R'), data'.opts = data.opts →
      buildCreateTableStmt data' = buildCreateTableStmt data) ∧
    (∀ ops : RandOps R, (buildInsertStmt ops data).1.1 =
      "INSERT INTO t1 VALUES (" ++ String.intercalate "," (insertValues K I C) ++ ")") ∧
    (insertValues K I C).length = (columnDefs data.opts.GuidPrimary K I C).length := by
  have hKn : data.opts.NumberSecondaryIndexes.toNat = K := by rw [hK]; rfl
  have hIn : data.opts.NumberIntCols.toNat = I := by rw [hI]; rfl
  have hCn : data.opts.NumberCharCols.toNat = C := by rw [hC]; rfl
  have hcols : (columnDefs data.opts.GuidPrimary K I C).length = 1 + K + I + C := by
    simp [columnDefs]; omega
  refine ⟨?_, hcols, ?_, ?_, ?_, ?_⟩
  · rw [buildCreateTableStmt_eq, hKn, hIn, hCn]
  · rw [buildCreateTableStmt_eq, hIn, hCn]
    cases data.opts.IntColsIndex <;> cases data.opts.CharColsIndex <;> simp [indexStmts]
  · intro R' data' ho
    rw [buildCreateTableStmt_eq, buildCreateTableStmt_eq, ho]
  · intro ops
    rw [buildInsertStmt_eq, hKn, hIn, hCn]
    exact insertText_eq_values K I C
  · rw [hcols]
    simp [insertValues]; omega

/-- The theorem `create_table_statement` at two secondary indexes, two indexed
integer columns and one character column. -/
theorem create_table_statement_witness :
    buildCreateTableStmt (newData schemaOpts [] (0 : Nat)) =
      ("CREATE TABLE t1 (id serial PRIMARY KEY,id1 uuid UNIQUE,id2 uuid UNIQUE," ++
          "intcol1 int,intcol2 int,charcol1 varchar(128))",
        ["CREATE INDEX ON t1(intcol1)", "CREATE INDEX ON t1(intcol2)"]) :=
  (create_table_statement (newData schemaOpts [] (0 : Nat)) 2 2 1
    rfl rfl rfl).1.trans (by decide)

/-! ## The agent's tick -/

theorem query_of_tolerated (r : ExecResult) (err : ExecError) (hr : r.err = some err)
    (ht : tolerated r err = true) : query r = (r.stop - r.start, none) := by
  simp only [tolerated, Bool.or_eq_true, Bool.and_eq_true] at ht
  simp only [query, hr]
  rcases ht with (hc | ht) | ⟨h1, h2⟩
  · simp [hc]
  · simp [ht]
  · simp [h1, h2]

theorem query_of_not_tolerated (r : ExecResult) (err : ExecError) (hr : r.err = some err)
    (ht : tolerated r err = false) : query r = (0, some err) := by
  simp only [tolerated, Bool.or_eq_false_iff, Bool.and_eq_false_iff] at ht
  obtain ⟨⟨hc, hto⟩, hcl⟩ := ht
  simp only [query, hr, hc, hto]
  rcases hcl with h | h <;> simp [h]

theorem query_of_success (r : ExecResult) (hr : r.err = none) :
    query r = (r.stop - r.start, none) := by
  simp [query, hr]

/-- A tick that reaches the executor, by what `query` returns. -/
theorem step_of_exec {R : Type} (ops : RandOps R) (nQueries : Int) (i : Nat) (t : Tick)
    (s : AgentState R) (q : String) (args : List Arg) (d' : Data R)
    (hb : ¬ (0 < nQueries ∧ (i : Int) ≥ nQueries)) (hsel : selectCase t ≠ .done)
    (hnext : next ops s.data = some ((q, args), d')) :
    step ops nQueries i t s =
      match query (t.exec q args) with
      | (_, some err) =>
        some ((false, some { query := q, args := args, cause := err }),
          { data := d',
            recDps := if selectCase t = .tick then [] else s.recDps,
            recorded :=
              if selectCase t = .tick then recorderAdd s.recorded s.recDps else s.recorded,
            executed := s.executed ++ [(q, args)] })
      | (rt, none) =>
        some ((true, none),
          { data := d',
            recDps := (if selectCase t = .tick then [] else s.recDps) ++
              [{ timestamp := t.now, resTime := rt }],
            recorded :=
              if selectCase t = .tick then recorderAdd s.recorded s.recDps else s.recorded,
            executed := s.executed ++ [(q, args)] }) := by
  simp only [step, hb, if_false]
  cases hs : selectCase t with
  | done => exact absurd hs hsel
  | tick =>
    simp only [eq_self_iff_true, if_true, hnext]
  | dflt =>
    have hne : SelectCase.dflt ≠ SelectCase.tick := by decide
    simp only [hne, if_false, hnext]

theorem run_of_empty_batch {R : Type} (ops : RandOps R) (nQueries : Int) (agentId : Nat)
    (env : Nat → Tick) (fuel : Nat) (s s' : AgentState R) (e : Option StepError)
    (h : s.recDps = [])
    (hloop : loopWithThrottle (fun i s => step ops nQueries i (env i) s) fuel 0 s =
      some (e, s')) :
    run ops nQueries agentId env fuel s = some (e.map (RunError.mk agentId), s') := by
  have hs : ({ s with recDps := [] } : AgentState R) = s := by
    cases s; simp only [AgentState.mk.injEq, true_and, and_true] at *; exact h.symm
  rw [run, hs, hloop]
  cases e <;> rfl

/-- Claim C7, amended. For a failure `err` of `Exec`: `Agent.query` returns no
error if and only if the failure is cancellation-induced, or is a timeout
(whatever the state of the connection), or the connection is a pgx connection
that is already closed (whatever the failure). For every other failure `query`
returns that error with a zero duration, the step function returns
`continue = false` with an error wrapping it, the loop stops with that error
and `Agent.run` returns it wrapped. -/
theorem query_error_policy {R : Type} (ops : RandOps R) (nQueries : Int) (i : Nat)
    (env : Nat → Tick) (s : AgentState R) (q : String) (args : List Arg) (d' : Data R)
    (err : ExecError) (hb : ¬ (0 < nQueries ∧ (i : Int) ≥ nQueries))
    (hsel : selectCase (env i) ≠ .done) (hnext : next ops s.data = some ((q, args), d'))
    (herr : ((env i).exec q args).err = some err) :
    ((query ((env i).exec q args)).2 = none ↔
      (err.canceled = true ∨ err.timeout = true ∨
        (((env i).exec q args).isPgxConn = true ∧ ((env i).exec q args).isClosed = true))) ∧
    ((query ((env i).exec q args)).2 ≠ none →
      query ((env i).exec q args) = (0, some err) ∧
      ∃ s', step ops nQueries i (env i) s =
          some ((false, some { query := q, args := args, cause := err }), s') ∧
        (∀ fuel, loopWithThrottle (fun j s => step ops nQueries j (env j) s) (fuel + 1) i s =
          some (some { query := q, args := args, cause := err }, s')) ∧
        (i = 0 → s.recDps = [] → ∀ agentId fuel,
          run ops nQueries agentId env (fuel + 1) s =
            some (some (RunError.mk agentId (StepError.mk q args err)), s'))) := by
  cases ht : tolerated ((env i).exec q args) err with
  | true =>
    have hq := query_of_tolerated _ err herr ht
    simp only [tolerated, Bool.or_eq_true, Bool.and_eq_true] at ht
    rw [hq]
    refine ⟨⟨fun _ => ?_, fun _ => rfl⟩, fun h => absurd rfl h⟩
    rcases ht with (h | h) | h
    · exact Or.inl h
    · exact Or.inr (Or.inl h)
    · exact Or.inr (Or.inr h)
  | false =>
    have hq := query_of_not_tolerated _ err herr ht
    have hstep := step_of_exec ops nQueries i (env i) s q args d' hb hsel hnext
    rw [hq] at hstep
    simp only [tolerated, Bool.or_eq_false_iff, Bool.and_eq_false_iff] at ht
    obtain ⟨⟨hc, hto⟩, hcl⟩ := ht
    rw [hq]
    refine ⟨⟨(fun h => by cases h), fun h => ?_⟩, fun _ => ⟨rfl, _, hstep, fun fuel => ?_, ?_⟩⟩
    · rcases h with h | h | ⟨h1, h2⟩
      · rw [hc] at h; cases h
      · rw [hto] at h; cases h
      · rcases hcl with h' | h'
        · rw [h'] at h1; cases h1
        · rw [h'] at h2; cases h2
    · simp only [loopWithThrottle, hstep]
    · rintro rfl hrec agentId fuel
      exact run_of_empty_batch ops nQueries agentId env (fuel + 1) s _
        (some (StepError.mk q args err)) hrec (by simp only [loopWithThrottle, hstep])

/-- The theorem `query_error_policy` on a failure that is neither a
cancellation nor a timeout, on an open connection: `query` returns it. -/
theorem query_error_policy_witness :
    selectCase (sampleTick false false false (failing ⟨false, false, "syntax error"⟩)) ≠ .done ∧
      query (failing ⟨false, false, "syntax error"⟩) =
        (0, some ⟨false, false, "syntax error"⟩) :=
  ⟨by decide,
    ((query_error_policy counterOps 0 0
      (fun _ => sampleTick false false false (failing ⟨false, false, "syntax error"⟩))
      sampleAgent "SELECT intcol1 FROM t1" [] (newData (sampleOpts "read") [] 0)
      ⟨false, false, "syntax error"⟩ (by decide) (by decide) (by decide) rfl).2
      (by decide)).1⟩

/-- Claim C7, as stated, fails: a timeout on a connection that is still open is
let pass, and so is a failure that is neither a cancellation nor a timeout on
a pgx connection that is already closed. -/
theorem timeout_on_open_connection_is_tolerated :
    (failing ⟨false, true, "timeout"⟩).isClosed = false ∧
      (query (failing ⟨false, true, "timeout"⟩)).2 = none ∧
      (query { failing ⟨false, false, "conn closed"⟩ with isClosed := true }).2 = none := by
  decide

theorem query_duration_of_no_error (r : ExecResult) (h : (query r).2 = none) :
    query r = (r.stop - r.start, none) := by
  cases hr : r.err with
  | none => exact query_of_success r hr
  | some err =>
    cases ht : tolerated r err with
    | true => exact query_of_tolerated r err hr ht
    | false =>
      rw [query_of_not_tolerated r err hr ht] at h
      cases h

theorem query_zero_of_error (r : ExecResult) (err : ExecError) (h : (query r).2 = some err) :
    query r = (0, some err) := by
  cases hr : r.err with
  | none => rw [query_of_success r hr] at h; cases h
  | some e =>
    cases ht : tolerated r e with
    | true => rw [query_of_tolerated r e hr ht] at h; cases h
    | false =>
      rw [query_of_not_tolerated r e hr ht] at h ⊢
      simp only [Option.some.injEq] at h
      rw [h]

/-- Claim C8, amended. On a tick that reaches the executor: a tolerated failure
makes `Agent.query` report the measured elapsed time `end - start` with no
error, as a success does; whenever `query` returns no error the tick appends
one sample with that duration to the batch (emptied first when the record tick
was taken); and when `query` returns an error, the duration is zero, no sample
is appended and the step returns `continue = false`. So the batch grows by
exactly one sample per statement whose `query` returns no error, and by none
otherwise. -/
theorem sample_per_returned_query {R : Type} (ops : RandOps R) (nQueries : Int) (i : Nat)
    (t : Tick) (s : AgentState R) (q : String) (args : List Arg) (d' : Data R)
    (hb : ¬ (0 < nQueries ∧ (i : Int) ≥ nQueries)) (hsel : selectCase t ≠ .done)
    (hnext : next ops s.data = some ((q, args), d')) :
    (∀ err, (t.exec q args).err = some err → tolerated (t.exec q args) err = true →
      query (t.exec q args) = ((t.exec q args).stop - (t.exec q args).start, none)) ∧
    ((query (t.exec q args)).2 = none →
      ∃ s', step ops nQueries i t s = some ((true, none), s') ∧
        s'.recDps = (if selectCase t = .tick then [] else s.recDps) ++
          [{ timestamp := t.now, resTime := (t.exec q args).stop - (t.exec q args).start }]) ∧
    (∀ err, (query (t.exec q args)).2 = some err →
      (query (t.exec q args)).1 = 0 ∧
      ∃ s', step ops nQueries i t s =
          some ((false, some { query := q, args := args, cause := err }), s') ∧
        s'.recDps = if selectCase t = .tick then [] else s.recDps) ∧
    ((t.exec q args).err = none →
      query (t.exec q args) = ((t.exec q args).stop - (t.exec q args).start, none)) := by
  have hstep := step_of_exec ops nQueries i t s q args d' hb hsel hnext
  refine ⟨fun err he ht => query_of_tolerated _ err he ht, fun h => ?_, fun err h => ?_,
    fun h => query_of_success _ h⟩
  · rw [query_duration_of_no_error _ h] at hstep
    exact ⟨_, hstep, rfl⟩
  · have hq := query_zero_of_error _ err h
    rw [hq] at hstep
    rw [hq]
    exact ⟨rfl, _, hstep, rfl⟩

/-- The theorem `sample_per_returned_query` on a cancelled statement: the step
goes on and the batch holds one sample. -/
theorem sample_per_returned_query_witness :
    selectCase (sampleTick false false false (failing ⟨true, false, "context canceled"⟩)) ≠
        .done ∧
      ∃ s', step counterOps 0 0
          (sampleTick false false false (failing ⟨true, false, "context canceled"⟩))
          sampleAgent = some ((true, none), s') ∧
        s'.recDps = [{ timestamp := 1000, resTime := 250 }] :=
  ⟨by decide,
    (sample_per_returned_query counterOps 0 0
      (sampleTick false false false (failing ⟨true, false, "context canceled"⟩))
      sampleAgent "SELECT intcol1 FROM t1" [] (newData (sampleOpts "read") [] 0)
      (by decide) (by decide) (by decide)).2.1 (by decide)⟩

/-- Claim C8, as stated, fails: a statement that fails with a cancellation (a
tolerated failure) after 250 time units is reported with the duration 250, not
zero, and the tick appends a sample for it. -/
theorem tolerated_failure_is_sampled :
    tolerated (failing ⟨true, false, "context canceled"⟩) ⟨true, false, "context canceled"⟩ =
        true ∧
      query (failing ⟨true, false, "context canceled"⟩) = (250, none) ∧
      (step counterOps 0 0
          (sampleTick false false false (failing ⟨true, false, "context canceled"⟩))
          sampleAgent).map (fun r => (r.1, r.2.recDps)) =
        some ((true, none), [{ timestamp := 1000, resTime := 250 }]) := by
  decide

/-- When the cancellation has fired, a tick whose `select` takes the
cancellation case (always so when no record tick is pending, otherwise when
the runtime picks it among the two ready cases) returns `continue = false`
with no error and leaves everything as it was: the generator, the buffered
batch, the batches given to the recorder and the statements given to the
executor. The loop ends at that tick with no error, and `Agent.run` returns
nil when it is the first tick. -/
theorem cancelled_tick_stops {R : Type} (ops : RandOps R) (nQueries : Int) (i : Nat)
    (env : Nat → Tick) (s : AgentState R) (hc : (env i).ctxDone = true)
    (hp : (env i).tickReady = false ∨ (env i).pickDone = true) :
    step ops nQueries i (env i) s = some ((false, none), s) ∧
    (∀ fuel, loopWithThrottle (fun j s => step ops nQueries j (env j) s) (fuel + 1) i s =
      some (none, s)) ∧
    (i = 0 → s.recDps = [] → ∀ agentId fuel,
      run ops nQueries agentId env (fuel + 1) s = some (none, s)) := by
  have hsel : selectCase (env i) = .done := by
    rcases hp with hp | hp <;> simp [selectCase, hc, hp]
  have hstep : step ops nQueries i (env i) s = some ((false, none), s) := by
    simp only [step, hsel]
    split <;> rfl
  refine ⟨hstep, fun fuel => ?_, ?_⟩
  · simp only [loopWithThrottle, hstep]
  · rintro rfl hrec agentId fuel
    exact run_of_empty_batch ops nQueries agentId env (fuel + 1) s s none hrec
      (by simp only [loopWithThrottle, hstep])

/-- The theorem `cancelled_tick_stops` on a cancelled tick with no record tick
pending: the run returns nil and nothing was executed. -/
theorem cancelled_tick_stops_witness :
    (sampleTick true false false (failing ⟨true, false, "context canceled"⟩)).ctxDone = true ∧
      (run counterOps 0 7
        (fun _ => sampleTick true false false (failing ⟨true, false, "context canceled"⟩)) 1
        sampleAgent).map (fun r => (r.1, r.2.executed, r.2.recDps)) = some (none, [], []) := by
  refine ⟨rfl, ?_⟩
  rw [(cancelled_tick_stops counterOps 0 0
    (fun _ => sampleTick true false false (failing ⟨true, false, "context canceled"⟩))
    sampleAgent rfl (Or.inl rfl)).2.2 rfl rfl 7 0]
  rfl

/-- Claim C9. The code at the failing input: the cancellation has fired, a
record tick is pending and `select` runs the record-tick case. The tick then
flushes the batch, pulls a statement from the generator, hands it to the
executor, buffers a sample and returns `continue = true`, where the claim has
it return `continue = false` with nothing executed. The `select` of
`Task.prePopulateData`, with no other case than `default`, takes the
cancellation on the same input. -/
theorem cancelled_tick_may_still_execute :
    (sampleTick true true false (failing ⟨true, false, "context canceled"⟩)).ctxDone = true ∧
      selectCase (sampleTick true true false (failing ⟨true, false, "context canceled"⟩)) =
        SelectCase.tick ∧
      (step counterOps 0 0
          (sampleTick true true false (failing ⟨true, false, "context canceled"⟩))
          sampleAgent).map (fun r => (r.1, r.2.executed, r.2.recDps, r.2.recorded)) =
        some ((true, none), [("SELECT intcol1 FROM t1", [])],
          [{ timestamp := 1000, resTime := 250 }], [[]]) ∧
      selectDoneOrDefault
          (sampleTick true true false (failing ⟨true, false, "context canceled"⟩)).ctxDone =
        SelectCase.done :=
  ⟨rfl, rfl, rfl, rfl⟩

/-! ## The database lifecycle -/

/-- A `createDatabase` that returned nil read a count: below 1 it sent the
`CREATE DATABASE` and left the task as it was, else it sent none and set
`UseExistingDatabase`. -/
theorem createDatabase_ok (task : TaskOpts) (w : ServerAnswers) (task1 : TaskOpts)
    (sent : List Stmt) (h : createDatabase task w = (none, task1, sent)) :
    ∃ cnt, checkedCount task w = some cnt ∧
      (cnt < 1 → task1 = task ∧ Stmt.createDatabase task.Database ∈ sent) ∧
      (¬ cnt < 1 → task1 = { task with UseExistingDatabase := true } ∧
        Stmt.createDatabase task.Database ∉ sent) := by
  cases hcnt : checkedCount task w with
  | none =>
    exfalso
    unfold createDatabase at h
    rw [hcnt] at h
    by_cases h1 : (!task.OnlyPrint && !w.connects) = true
    · simp [h1] at h
    · by_cases h2 : (task.DropExistingDatabase && !task.OnlyPrint && !w.dropIfExistsOk) = true
      · simp [h1, h2] at h
      · simp [h1, h2] at h
  | some cnt =>
    refine ⟨cnt, rfl, ?_, ?_⟩
    · intro hlt
      unfold createDatabase at h
      rw [hcnt] at h
      by_cases h1 : (!task.OnlyPrint && !w.connects) = true
      · simp [h1] at h
      · by_cases h2 : (task.DropExistingDatabase && !task.OnlyPrint && !w.dropIfExistsOk) = true
        · simp [h1, h2] at h
        · by_cases h3 : (!task.OnlyPrint && !w.createOk) = true
          · simp [h1, h2, h3, hlt] at h
          · simp only [h1, h2, h3, hlt, if_true, Bool.false_eq_true, if_false, Prod.mk.injEq,
              true_and] at h
            obtain ⟨ht, hs⟩ := h
            subst ht hs
            simp
    · intro hge
      unfold createDatabase at h
      rw [hcnt] at h
      by_cases h1 : (!task.OnlyPrint && !w.connects) = true
      · simp [h1] at h
      · by_cases h2 : (task.DropExistingDatabase && !task.OnlyPrint && !w.dropIfExistsOk) = true
        · simp [h1, h2] at h
        · simp only [h1, h2, hge, if_false, Bool.false_eq_true, Prod.mk.injEq, true_and] at h
          obtain ⟨ht, hs⟩ := h
          subst ht hs
          by_cases hd : task.DropExistingDatabase = true <;> simp [hd]

theorem teardownDB_sent (task : TaskOpts) (w : ServerAnswers)
    (hconn : task.OnlyPrint = true ∨ w.connects = true) :
    (teardownDB task w).2 =
      if task.NoDropDatabase = false ∧ task.UseExistingDatabase = false then
        [Stmt.dropDatabase task.Database]
      else [] := by
  unfold teardownDB
  cases hn : task.NoDropDatabase <;> cases hu : task.UseExistingDatabase <;>
    cases ho : task.OnlyPrint <;> cases hc : w.connects <;> cases hd : w.dropOk <;>
    simp_all

theorem teardownDB_sent_of_kept (task : TaskOpts) (w : ServerAnswers)
    (h : task.NoDropDatabase = true ∨ task.UseExistingDatabase = true) :
    (teardownDB task w).2 = [] := by
  unfold teardownDB
  rcases h with h | h <;> simp [h]

/-- On the interrupt path, after a `createDatabase` that
returned nil and with a connection for the teardown (or in a dry run),
`teardownDB` sends the `DROP DATABASE` of the target database if and only if
this run created it, `NoDropDatabase` is not set and `UseExistingDatabase` was
not set in the configuration. The run created it exactly when its existence
check read a count below 1. A database that the check found (count 1 or more)
is never dropped, and the teardown sends no other statement. -/
theorem interrupt_teardown_drops_iff (task : TaskOpts) (w w' : ServerAnswers)
    (task1 : TaskOpts) (sent : List Stmt)
    (hcreate : createDatabase task w = (none, task1, sent))
    (hconn : task.OnlyPrint = true ∨ w'.connects = true) :
    (Stmt.dropDatabase task.Database ∈ (interruptTeardown task1 w').1 ↔
      (Stmt.createDatabase task.Database ∈ sent ∧ task.NoDropDatabase = false ∧
        task.UseExistingDatabase = false)) ∧
    (Stmt.createDatabase task.Database ∈ sent ↔
      ∃ cnt, checkedCount task w = some cnt ∧ cnt < 1) ∧
    ((∃ cnt, checkedCount task w = some cnt ∧ 1 ≤ cnt) →
      ∀ w'' : ServerAnswers, (interruptTeardown task1 w'').1 = []) ∧
    (∀ s ∈ (interruptTeardown task1 w').1, s = Stmt.dropDatabase task.Database) := by
  obtain ⟨cnt, hcnt, hlt, hge⟩ := createDatabase_ok task w task1 sent hcreate
  by_cases hc : cnt < 1
  · obtain ⟨ht, hmem⟩ := hlt hc
    subst ht
    have hsent := teardownDB_sent task1 w' hconn
    refine ⟨?_, ⟨fun _ => ⟨cnt, hcnt, hc⟩, fun _ => hmem⟩, ?_, ?_⟩
    · simp only [interruptTeardown, hsent]
      by_cases hk : task1.NoDropDatabase = false ∧ task1.UseExistingDatabase = false
      · simp [hk, hmem]
      · rw [if_neg hk]
        simp only [List.not_mem_nil, false_iff, not_and]
        intro _ h1 h2
        exact hk ⟨h1, h2⟩
    · rintro ⟨c, hc1, hc2⟩
      rw [hcnt, Option.some.injEq] at hc1
      omega
    · intro s hs
      simp only [interruptTeardown, hsent] at hs
      split at hs
      · simpa using hs
      · simp at hs
  · obtain ⟨ht, hmem⟩ := hge hc
    have hkept : ∀ w'' : ServerAnswers, (teardownDB task1 w'').2 = [] := fun w'' =>
      teardownDB_sent_of_kept task1 w'' (Or.inr (by rw [ht]))
    refine ⟨?_, ⟨fun h => absurd h hmem, ?_⟩, fun _ w'' => hkept w'', ?_⟩
    · simp only [interruptTeardown, hkept w', List.not_mem_nil, false_iff, not_and]
      intro h
      exact absurd h hmem
    · rintro ⟨c, hc1, hc2⟩
      rw [hcnt, Option.some.injEq] at hc1
      subst hc1
      exact absurd hc2 hc
    · intro s hs
      simp [interruptTeardown, hkept w'] at hs

/-- The theorem `interrupt_teardown_drops_iff` on a run that found no database
and has no flag set: the interrupt drops the database it created. -/
theorem interrupt_teardown_drops_iff_witness :
    createDatabase sampleTask (sampleServer 0) =
        (none, sampleTask, [Stmt.countDatabase "bench", Stmt.createDatabase "bench"]) ∧
      Stmt.dropDatabase "bench" ∈ (interruptTeardown sampleTask (sampleServer 0)).1 :=
  ⟨by decide,
    (interrupt_teardown_drops_iff sampleTask (sampleServer 0) (sampleServer 0) sampleTask
      [Stmt.countDatabase "bench", Stmt.createDatabase "bench"] (by decide)
      (Or.inr rfl)).1.2 ⟨by decide, rfl, rfl⟩⟩

/-- With `UseExistingDatabase` set in the
configuration and no database found, `createDatabase` creates the database,
`NoDropDatabase` is not set, and the teardown on interrupt does not drop it. -/
theorem created_database_kept_under_use_existing :
    createDatabase { sampleTask with UseExistingDatabase := true } (sampleServer 0) =
        (none, { sampleTask with UseExistingDatabase := true },
          [Stmt.countDatabase "bench", Stmt.createDatabase "bench"]) ∧
      ({ sampleTask with UseExistingDatabase := true } : TaskOpts).NoDropDatabase = false ∧
      (interruptTeardown { sampleTask with UseExistingDatabase := true } (sampleServer 0)).1 =
        [] := by
  decide

/-- The method `Task.Close` sends no statement, whatever the flags. -/
theorem close_sends_nothing (task : TaskOpts) : Close task = (none, []) := rfl

/-- Claim C11. The code at the failing input: a run with no flag set that found
no database. `createDatabase` creates the database and `NoDropDatabase` is not
set, so the claim has the teardown drop it. On the normal path (the deferred
function of `Task.Run`, then `Task.Close`) no statement is sent, whatever the
server answers, so the database stays; the interrupt path on the same task
sends the `DROP DATABASE`. -/
theorem normal_teardown_keeps_created_database :
    createDatabase sampleTask (sampleServer 0) =
        (none, sampleTask, [Stmt.countDatabase "bench", Stmt.createDatabase "bench"]) ∧
      sampleTask.NoDropDatabase = false ∧ sampleTask.UseExistingDatabase = false ∧
      normalTeardown sampleTask = (none, []) ∧
      (interruptTeardown sampleTask (sampleServer 0)).1 = [Stmt.dropDatabase "bench"] ∧
      teardownDB sampleTask (sampleServer 0) = (none, [Stmt.dropDatabase "bench"]) := by
  decide

end Pgslap
